import Mathlib

/-!
Verification development for the wallet SDK core (EthWallet / SuiWallet).

The TypeScript source under `src/packages/coin-ethereum/src/EthWallet.ts` is shallowly
embedded below. Byte buffers are `List Nat` (each element a byte value < 256 when produced
by a decoder), hex strings are Lean `String`s, fallible operations return `Except`.
Library code of the repository that is not under `src/` (the vendored ethereumjs sdk,
the crypto-lib and coin-base packages, the sui sdk) is modelled from the spec; every such
definition carries a doc comment starting with `Modelled from the spec:`. The secp256k1
and keccak primitives are abstracted as an explicit backend parameter (`Secp`) so that
statements quantify over any backend, and concrete witnesses instantiate a trivial one.
-/

set_option maxRecDepth 10000

namespace WalletSDK

/-! ## Hex and byte utilities -/

/-- Hexadecimal value of one character; `none` when the character is not a hex digit.
The `% 16` is the identity on every in-range branch and only eases bound reasoning. -/
def hexVal (c : Char) : Option Nat :=
  if '0' ≤ c ∧ c ≤ '9' then some ((c.toNat - '0'.toNat) % 16)
  else if 'a' ≤ c ∧ c ≤ 'f' then some ((c.toNat - 'a'.toNat + 10) % 16)
  else if 'A' ≤ c ∧ c ≤ 'F' then some ((c.toNat - 'A'.toNat + 10) % 16)
  else none

/-- Lower-case hex digit character for a value below 16. -/
def hexDigitChar (n : Nat) : Char :=
  if n < 10 then Char.ofNat (48 + n) else Char.ofNat (87 + n)

/-- Two lower-case hex digits of one byte. -/
def byteHexChars (b : Nat) : List Char :=
  [hexDigitChar (b % 256 / 16), hexDigitChar (b % 16)]

/-- Hex digit characters of a byte string, two digits per byte. -/
def bytesToHexBody : List Nat → List Char
  | [] => []
  | b :: bs => byteHexChars b ++ bytesToHexBody bs

/-- Decode hex digit characters two at a time into bytes; `none` on an odd count or a
non-hex character. -/
def pairsToBytes : List Char → Option (List Nat)
  | [] => some []
  | [_] => none
  | c1 :: c2 :: rest =>
    match hexVal c1, hexVal c2, pairsToBytes rest with
    | some h, some l, some bs => some ((16 * h + l) :: bs)
    | _, _, _ => none

/-- Drop a leading `0x` from a character list, when present. -/
def strip0x : List Char → List Char
  | '0' :: 'x' :: rest => rest
  | l => l

/-- Left-pad an odd-length hex body with one zero nibble. -/
def padOddNibbles (l : List Char) : List Char :=
  if l.length % 2 = 1 then '0' :: l else l

/-- Modelled from the spec: `base.fromHex` of the crypto-lib package (not under `src/`).
The hex helpers convert between optionally `0x`-prefixed hex text and raw bytes; an
odd-length body is left-padded with one zero nibble and a non-hex character is a
decoding error. -/
def fromHex (s : String) : Except String (List Nat) :=
  match pairsToBytes (padOddNibbles (strip0x s.data)) with
  | some bs => Except.ok bs
  | none => Except.error "invalid hex string"

/-- Modelled from the spec: `hexToBytes` of the vendored ethereumjs util (not under
`src/`): converts `0x`-prefixed hex text to raw bytes, failing without the prefix or on a
non-hex digit; an odd-length body is left-padded with one zero nibble. -/
def hexToBytes (s : String) : Except String (List Nat) :=
  match s.data with
  | '0' :: 'x' :: body =>
    match pairsToBytes (padOddNibbles body) with
    | some bs => Except.ok bs
    | none => Except.error "invalid hex string"
  | _ => Except.error "hex string must be 0x-prefixed"

/-- Modelled from the spec: `unpadBytes` of the vendored ethereumjs util strips leading
zero bytes, giving the minimal big-endian form of an integer. -/
def unpadBytes (bs : List Nat) : List Nat := bs.dropWhile (fun b => b == 0)

/-- Modelled from the spec: `unpadBuffer` strips leading zero bytes from a signature
scalar buffer. -/
def unpadBuffer (bs : List Nat) : List Nat := bs.dropWhile (fun b => b == 0)

/-- `bytesToHex` renders bytes as a `0x`-prefixed lower-case hex string. -/
def bytesToHex (bs : List Nat) : String := String.mk ('0' :: 'x' :: bytesToHexBody bs)

/-- Modelled from the spec: `base.toHex(buf, true)` renders bytes as a `0x`-prefixed hex
string. -/
def toHexPrefixed (bs : List Nat) : String := String.mk ('0' :: 'x' :: bytesToHexBody bs)

/-- Fueled minimal big-endian hex digits of a natural number. -/
def natHexCharsAux : Nat → Nat → List Char
  | 0, _ => []
  | fuel + 1, n => if n = 0 then [] else natHexCharsAux fuel (n / 16) ++ [hexDigitChar (n % 16)]

/-- Minimal hex digits of a natural number; zero renders as the single digit `0`. -/
def natToHexChars (n : Nat) : List Char :=
  if n = 0 then ['0'] else natHexCharsAux n n

/-- Modelled from the spec: `base.toBigIntHex` renders an arbitrary-precision integer as
minimal `0x`-prefixed hex text; zero renders as `0x0`. -/
def toBigIntHex (n : Nat) : String := String.mk ('0' :: 'x' :: natToHexChars n)

/-- Fueled minimal big-endian byte string of a natural number. -/
def natBytesAux : Nat → Nat → List Nat
  | 0, _ => []
  | fuel + 1, n => if n = 0 then [] else natBytesAux fuel (n / 256) ++ [n % 256]

/-- Minimal big-endian byte string of a natural number; zero is the empty byte string. -/
def natToBytesBE (n : Nat) : List Nat := natBytesAux n n

/-- Big-endian value of a byte string. -/
def bytesToNatBE (bs : List Nat) : Nat := bs.foldl (fun acc b => acc * 256 + b % 256) 0

/-- Big-endian value of hex digit characters (non-digits count as zero). -/
def hexCharsVal (l : List Char) : Nat := l.foldl (fun acc c => acc * 16 + (hexVal c).getD 0) 0

/-- Numeric value denoted by an optionally `0x`-prefixed hex string. -/
def hexStrVal (s : String) : Nat := hexCharsVal (strip0x s.data)

/-- Parse an optionally `0x`-prefixed hex numeral; fails on an empty body or a non-hex
character (mirrors BigNumber parsing of the amount inside `abi.RawEncode`). -/
def parseHexNat (s : String) : Except String Nat :=
  match strip0x s.data with
  | [] => Except.error "invalid number"
  | l => if l.all (fun c => (hexVal c).isSome) then Except.ok (hexCharsVal l)
         else Except.error "invalid number"

/-! ## Base64 (for the Sui wallet surface) -/

/-- Base64 value of one character; `none` when the character is not in the alphabet. -/
def b64Val (c : Char) : Option Nat :=
  if 'A' ≤ c ∧ c ≤ 'Z' then some (c.toNat - 65)
  else if 'a' ≤ c ∧ c ≤ 'z' then some (c.toNat - 97 + 26)
  else if '0' ≤ c ∧ c ≤ '9' then some (c.toNat - 48 + 52)
  else if c = '+' then some 62
  else if c = '/' then some 63
  else none

/-- Decode base64 characters in groups of four, honouring `=` padding on the final
group; `none` on any malformed input. -/
def b64Groups : List Char → Option (List Nat)
  | [] => some []
  | c1 :: c2 :: c3 :: c4 :: rest =>
    match b64Val c1, b64Val c2 with
    | some v1, some v2 =>
      if c3 = '=' ∧ c4 = '=' ∧ rest = [] then some [v1 * 4 + v2 / 16]
      else
        match b64Val c3 with
        | some v3 =>
          if c4 = '=' ∧ rest = [] then some [v1 * 4 + v2 / 16, v2 % 16 * 16 + v3 / 4]
          else
            match b64Val c4, b64Groups rest with
            | some v4, some bs =>
              some ((v1 * 4 + v2 / 16) :: (v2 % 16 * 16 + v3 / 4) :: (v3 % 4 * 64 + v4) :: bs)
            | _, _ => none
        | none => none
    | _, _ => none
  | _ => none

/-- Modelled from the spec: `base.fromBase64` of the crypto-lib package decodes base64
transaction-block text into bytes, failing on malformed input. -/
def fromBase64 (s : String) : Except String (List Nat) :=
  match b64Groups s.data with
  | some bs => Except.ok bs
  | none => Except.error "invalid base64"

/-! ## RLP (Modelled from the spec, section 4.1: the recursive length prefix codec of the
vendored ethereumjs sdk, which is not under `src/`) -/

mutual
/-- An RLP item: a byte string or a list of items. -/
inductive RItem where
  | bytes : List Nat → RItem
  | list : RList → RItem
/-- A list of RLP items (its own inductive to keep recursion structural). -/
inductive RList where
  | nil : RList
  | cons : RItem → RList → RList
end

/-- RLP length header: one byte `offset + len` for short payloads (at most 55 bytes),
otherwise `offset + 55 + size of len` followed by the big-endian bytes of `len`. -/
def encLen (offset len : Nat) : List Nat :=
  if len ≤ 55 then [offset + len]
  else (offset + 55 + (natToBytesBE len).length) :: natToBytesBE len

mutual
/-- RLP encoding: a single byte below `0x80` encodes as itself; other byte strings get a
`0x80`-offset header; lists get a `0xc0`-offset header over the concatenated items. -/
def rlpEncode : RItem → List Nat
  | .bytes bs =>
    match bs with
    | [b] => if b < 128 then [b] else [129, b]
    | _ => encLen 128 bs.length ++ bs
  | .list xs => encLen 192 (rlpEncodeList xs).length ++ rlpEncodeList xs
/-- Concatenated RLP encodings of a list of items. -/
def rlpEncodeList : RList → List Nat
  | .nil => []
  | .cons x xs => rlpEncode x ++ rlpEncodeList xs
end

mutual
/-- Fueled RLP decoder for one item, returning the item and the remaining bytes. -/
def rlpDecodeOne : Nat → List Nat → Option (RItem × List Nat)
  | 0, _ => none
  | _ + 1, [] => none
  | fuel + 1, b :: rest =>
    if b < 128 then some (.bytes [b], rest)
    else if b < 184 then
      if b - 128 ≤ rest.length then
        some (.bytes (rest.take (b - 128)), rest.drop (b - 128))
      else none
    else if b < 192 then
      if b - 183 ≤ rest.length then
        let n := bytesToNatBE (rest.take (b - 183))
        let r2 := rest.drop (b - 183)
        if n ≤ r2.length then some (.bytes (r2.take n), r2.drop n) else none
      else none
    else if b < 248 then
      if b - 192 ≤ rest.length then
        match rlpDecodeItems fuel (rest.take (b - 192)) with
        | some xs => some (.list xs, rest.drop (b - 192))
        | none => none
      else none
    else
      if b - 247 ≤ rest.length then
        let n := bytesToNatBE (rest.take (b - 247))
        let r2 := rest.drop (b - 247)
        if n ≤ r2.length then
          match rlpDecodeItems fuel (r2.take n) with
          | some xs => some (.list xs, r2.drop n)
          | none => none
        else none
      else none
/-- Fueled RLP decoder for a whole payload as a sequence of items. -/
def rlpDecodeItems : Nat → List Nat → Option RList
  | 0, _ => none
  | _ + 1, [] => some .nil
  | fuel + 1, b :: rest =>
    match rlpDecodeOne fuel (b :: rest) with
    | some (x, after) =>
      match rlpDecodeItems fuel after with
      | some xs => some (.cons x xs)
      | none => none
    | none => none
end

mutual
/-- Fuel measure for the decoder: enough fuel to decode the encoding of the item. -/
def rlpNodes : RItem → Nat
  | .bytes _ => 1
  | .list xs => rlpNodesList xs + 1
/-- Fuel measure for decoding a payload of items. -/
def rlpNodesList : RList → Nat
  | .nil => 1
  | .cons x xs => rlpNodes x + rlpNodesList xs + 1
end

mutual
/-- Every length field of the encoding fits in eight bytes (below `2 ^ 64`), the bound
under which the RLP long-form headers stay in their reserved byte ranges. -/
def rlpBounded : RItem → Bool
  | .bytes bs => decide (bs.length < 2 ^ 64)
  | .list xs => decide ((rlpEncodeList xs).length < 2 ^ 64) && rlpBoundedList xs
/-- `rlpBounded` for every item of a list. -/
def rlpBoundedList : RList → Bool
  | .nil => true
  | .cons x xs => rlpBounded x && rlpBoundedList xs
end

/-! ## Errors, signatures and the secp256k1 backend -/

/-- The typed error values a public wallet operation can reject with. The first group are
the constants the source imports from coin-base; `UnsupportedTransactionType` and
`MissingRequiredField` are names from the spec's error taxonomy (section 7), included so
spec claims about them can be stated — the embedded code never produces them;
`rawException` is an uncaught lower-level exception crossing an operation boundary. -/
inductive WalletError where
  | SignTxError : WalletError
  | NewAddressError : WalletError
  | CalcTxHashError : WalletError
  | GetMpcRawTransactionError : WalletError
  | GetMpcTransactionError : WalletError
  | GetHardwareRawTransactionError : WalletError
  | GetHardwareSignedTransactionError : WalletError
  | UnsupportedTransactionType : WalletError
  | MissingRequiredField : WalletError
  | rawException : String → WalletError
  deriving DecidableEq, Repr

/-- A recoverable ECDSA signature: `v` is 27 or 28 (27 + recovery parity), `r` and `s`
are 32-byte big-endian scalars. -/
structure EcdsaSig where
  v : Nat
  r : List Nat
  s : List Nat
  deriving DecidableEq, Repr

/-- Modelled from the spec: the secp256k1 and keccak primitives of the crypto-lib package
(not under `src/`), abstracted as a backend record. `ecdsaSign` is a pure function of the
hash and the key — the spec fixes the ECDSA nonce to be deterministic. -/
structure Secp where
  keccak256 : List Nat → List Nat
  ecdsaSign : List Nat → List Nat → EcdsaSig
  ecdsaRecover : List Nat → List Nat → List Nat → Nat → List Nat
  pubFromKey : List Nat → List Nat

/-- An EIP-7702 authorization list item, all fields `0x`-prefixed hex text
(source: `sdk/ethereumjs-tx/types`). -/
structure AuthorizationListItem where
  chainId : String
  address : String
  nonce : String
  yParity : String
  r : String
  s : String
  deriving DecidableEq, Repr

/-! ## EthWallet: authorization-item signing (source lines 242–297) -/

/-- The fields of `param.data` read by `signAuthorizationListItem` — the destructuring on
source line 249 takes only `chainId`, `nonce` and `address`; `otherTx` stands for any
further properties of the parameter object (the enclosing transaction), which the
operation never reads. -/
structure AuthSignData where
  chainId : String
  nonce : Option String
  address : String
  otherTx : List (String × String)
  deriving DecidableEq, Repr

/-- Parameters of `signAuthorizationListItem` (`SignTxParams` with an authorization
payload). -/
structure SignAuthParams where
  privateKey : Option String
  data : AuthSignData
  deriving DecidableEq, Repr

/-- The byte-level inputs assembled by source lines 243–256: decoded private key, the
zero-stripped chainId bytes, the address bytes exactly as decoded, and the zero-stripped
nonce bytes (empty when the nonce is absent). -/
structure AuthPrep where
  key : List Nat
  chainIdBytes : List Nat
  addressBytes : List Nat
  nonceBytes : List Nat
  deriving DecidableEq, Repr

/-- Source lines 243–256 of `signAuthorizationListItem`: the private-key guard (which
throws a raw `Error`, not a typed one), key decoding, the 32-byte length assertion, and
the hex-to-byte conversions with leading zeros stripped from chainId and nonce but kept
on the address. -/
def signAuthPrep (p : SignAuthParams) : Except WalletError AuthPrep :=
  match p.privateKey with
  | none => Except.error (.rawException "privateKey is invalid")
  | some pk =>
    if pk = "" then Except.error (.rawException "privateKey is invalid")
    else
      match fromHex pk with
      | Except.error e => Except.error (.rawException e)
      | Except.ok key =>
        if key.length = 32 then
          match hexToBytes p.data.chainId with
          | Except.error e => Except.error (.rawException e)
          | Except.ok cb =>
            match (match p.data.nonce with
                   | some n => (hexToBytes n).map unpadBytes
                   | none => Except.ok []) with
            | Except.error e => Except.error (.rawException e)
            | Except.ok nb =>
              match hexToBytes p.data.address with
              | Except.error e => Except.error (.rawException e)
              | Except.ok ab => Except.ok ⟨key, unpadBytes cb, ab, nb⟩
        else Except.error (.rawException "Invalid buffer length")

/-- Source lines 258–259: the byte string that is hashed — the one-byte domain tag `0x05`
followed by the RLP encoding of the three-element list `[chainId, address, nonce]`. -/
def authMsgPayload (cb ab nb : List Nat) : List Nat :=
  5 :: rlpEncode (.list (.cons (.bytes cb) (.cons (.bytes ab) (.cons (.bytes nb) .nil))))

/-- The message hash `signAuthorizationListItem` signs (source line 259). -/
def authMsgToSign (S : Secp) (p : SignAuthParams) : Except WalletError (List Nat) :=
  (signAuthPrep p).map (fun a => S.keccak256 (authMsgPayload a.chainIdBytes a.addressBytes a.nonceBytes))

/-- `EthWallet.signAuthorizationListItem` (source lines 242–273). -/
def signAuthorizationListItem (S : Secp) (p : SignAuthParams) :
    Except WalletError AuthorizationListItem :=
  match signAuthPrep p with
  | Except.error e => Except.error e
  | Except.ok a =>
    let msgToSign := S.keccak256 (authMsgPayload a.chainIdBytes a.addressBytes a.nonceBytes)
    let signed := S.ecdsaSign msgToSign a.key
    Except.ok
      { chainId := bytesToHex a.chainIdBytes
        address := p.data.address
        nonce := bytesToHex a.nonceBytes
        yParity := if signed.v - 27 = 0 then "0x" else "0x1"
        r := toHexPrefixed (unpadBuffer signed.r)
        s := toHexPrefixed (unpadBuffer signed.s) }

/-- `EthWallet.toRpcHex` (source lines 293–297): drop the `0x`, strip leading zero
characters from the body, an empty result becomes `0`, and re-prefix. -/
def toRpcHex (hex : String) : String :=
  let body := hex.data.drop 2
  let trimmed := body.dropWhile (fun c => c == '0')
  String.mk ('0' :: 'x' :: (if trimmed.isEmpty then ['0'] else trimmed))

/-- `EthWallet.toRpcAuth` (source lines 283–291): apply `toRpcHex` to the `chainId`,
`nonce`, `yParity`, `r` and `s` fields, leaving `address` untouched. -/
def toRpcAuth (auth : AuthorizationListItem) : AuthorizationListItem :=
  { auth with
    chainId := toRpcHex auth.chainId
    nonce := toRpcHex auth.nonce
    yParity := toRpcHex auth.yParity
    r := toRpcHex auth.r
    s := toRpcHex auth.s }

/-- `EthWallet.signAuthorizationListItemForRPC` (source lines 276–279). -/
def signAuthorizationListItemForRPC (S : Secp) (p : SignAuthParams) :
    Except WalletError AuthorizationListItem :=
  (signAuthorizationListItem S p).map toRpcAuth

/-! ## EthWallet: transaction parameter normalization (source lines 101–131) -/

/-- JavaScript `x || d` on an optional number: `undefined` and `0` are falsy. -/
def jsOrNat (o : Option Nat) (d : Nat) : Nat :=
  match o with
  | none => d
  | some 0 => d
  | some n => n

/-- The raw `param.data` object passed to `EthWallet.signTransaction`, with numeric
fields already read as arbitrary-precision integers (the source feeds them to BigNumber
before any other use). -/
structure EthTxDataIn where
  toAddr : String
  value : Option Nat
  useValue : Option Bool
  nonce : Nat
  contractAddress : Option String
  gasPrice : Option Nat
  gasLimit : Option Nat
  data : Option String
  chainId : Option Nat
  type : Option Nat
  maxPriorityFeePerGas : Option Nat
  maxFeePerGas : Option Nat
  authorizationList : Option (List AuthorizationListItem)
  deriving DecidableEq, Repr

/-- The normalized `EthTxParams` produced by `convert2TxParam`. -/
structure EthTxParams where
  toAddr : String
  value : String
  useValue : Bool
  nonce : String
  contractAddress : Option String
  gasPrice : String
  gasLimit : String
  data : Option String
  chainId : String
  type : Nat
  maxPriorityFeePerGas : String
  maxFeePerGas : String
  authorizationList : List AuthorizationListItem
  deriving DecidableEq, Repr

/-- `EthWallet.convert2HexString` (source lines 101–110): canonical minimal hex of a
BigNumber. -/
def convert2HexString (n : Nat) : String := toBigIntHex n

/-- `EthWallet.convert2TxParam` (source lines 112–131): defaults (`value`, gas fields,
`maxFee` fields to `0`; `chainId` to `1`; `type` to `0`; `authorizationList` to `[]`;
`useValue` to `false`) and normalization of every numeric field to canonical hex. -/
def convert2TxParam (d : EthTxDataIn) : EthTxParams :=
  { toAddr := d.toAddr
    value := convert2HexString (jsOrNat d.value 0)
    nonce := convert2HexString d.nonce
    contractAddress := d.contractAddress
    gasPrice := convert2HexString (jsOrNat d.gasPrice 0)
    gasLimit := convert2HexString (jsOrNat d.gasLimit 0)
    data := d.data
    chainId := convert2HexString (jsOrNat d.chainId 1)
    type := jsOrNat d.type 0
    maxPriorityFeePerGas := convert2HexString (jsOrNat d.maxPriorityFeePerGas 0)
    maxFeePerGas := convert2HexString (jsOrNat d.maxFeePerGas 0)
    authorizationList := d.authorizationList.getD []
    useValue := d.useValue.getD false }

/-! ## EthWallet: ERC-20 transfer data synthesis (source lines 34, 151–155) -/

/-- The fixed 4-byte function selector of `transfer(address,uint256)` (source line 34). -/
def TOKEN_TRANSFER_FUNCTION_SIGNATURE : String := "0xa9059cbb"

/-- Left-pad a byte string with zero bytes to 32 bytes. -/
def setLengthLeft32 (bs : List Nat) : List Nat := List.replicate (32 - bs.length) 0 ++ bs

/-- Modelled from the spec: `abi.RawEncode([address, uint256], [to, value])` of the
crypto-lib package (not under `src/`) — the 32-byte left-padded recipient address
followed by the 32-byte big-endian amount. -/
def abiRawEncodeTransfer (addressHex valueHex : String) : Except String (List Nat) := do
  let addr ← fromHex addressHex
  if addr.length ≤ 32 then
    match parseHexNat valueHex with
    | Except.error e => Except.error e
    | Except.ok v =>
      if v < 2 ^ 256 then
        Except.ok (setLengthLeft32 addr ++ setLengthLeft32 (natToBytesBE v))
      else Except.error "number out of range"
  else Except.error "address too long"

/-- Source lines 152–155 (same code in the type-2 and type-4 branches): the selector
string followed by the two lower-case hex digits of every encoded byte. -/
def tokenTransferData (toAddress value : String) : Except String String := do
  let enc ← abiRawEncodeTransfer toAddress value
  Except.ok (TOKEN_TRANSFER_FUNCTION_SIGNATURE ++ String.mk (bytesToHexBody enc))

/-! ## EthWallet: the txData objects built by signTransaction (source lines 145–231) -/

/-- The txData object of the legacy branch (source lines 163–172). -/
structure LegacyTxData where
  nonce : String
  gasPrice : String
  gasLimit : String
  toAddr : String
  value : String
  data : Option String
  chainId : String
  type : Nat
  deriving DecidableEq, Repr

/-- The txData object of the EIP-1559 branch (source lines 190–200). -/
structure FeeMarketTxData where
  nonce : String
  gasLimit : String
  toAddr : String
  value : String
  data : Option String
  chainId : String
  type : Nat
  maxPriorityFeePerGas : String
  maxFeePerGas : String
  deriving DecidableEq, Repr

/-- The txData object of the EIP-7702 branch (source lines 218–229). -/
structure DelegatedTxData where
  nonce : String
  gasLimit : String
  toAddr : String
  value : String
  data : Option String
  chainId : String
  type : Nat
  maxPriorityFeePerGas : String
  maxFeePerGas : String
  authorizationList : List AuthorizationListItem
  deriving DecidableEq, Repr

/-- The three txData shapes `signTransaction` can hand to `eth.signTransaction`. -/
inductive TxData where
  | legacy : LegacyTxData → TxData
  | feeMarket : FeeMarketTxData → TxData
  | delegated : DelegatedTxData → TxData
  deriving DecidableEq, Repr

/-- The `to` field of a txData object. -/
def txDataTo : TxData → String
  | .legacy t => t.toAddr
  | .feeMarket t => t.toAddr
  | .delegated t => t.toAddr

/-- The `value` field of a txData object. -/
def txDataValue : TxData → String
  | .legacy t => t.value
  | .feeMarket t => t.value
  | .delegated t => t.value

/-- The `data` field of a txData object. -/
def txDataData : TxData → Option String
  | .legacy t => t.data
  | .feeMarket t => t.data
  | .delegated t => t.data

/-- Whether a txData object has the Legacy shape. -/
def isLegacyTxData : TxData → Bool
  | .legacy _ => true
  | _ => false

/-- Whether a txData object has the FeeMarket shape. -/
def isFeeMarketTxData : TxData → Bool
  | .feeMarket _ => true
  | _ => false

/-- Whether a txData object has the DelegatedAuth shape. -/
def isDelegatedTxData : TxData → Bool
  | .delegated _ => true
  | _ => false

/-- JavaScript truthiness of an optional string: `undefined` and the empty string are
falsy (the `if (tokenAddress)` guards on source lines 151, 180 and 208). -/
def isTruthyStr : Option String → Bool
  | none => false
  | some s => !(s == "")

/-- The parameter-normalization and branch-selection part of `EthWallet.signTransaction`
(source lines 140–231): build the txData object per transaction type, synthesizing ERC-20
transfer call data when a contract address is present; a type other than 0, 1, 2, 4 is an
error (source line 232). -/
def signTransactionTxData (d : EthTxDataIn) : Except String TxData :=
  let p := convert2TxParam d
  if p.type = 0 ∨ p.type = 1 then
    if isTruthyStr p.contractAddress then
      match p.contractAddress with
      | some ca => do
        let dataStr ← tokenTransferData p.toAddr p.value
        let value := if p.useValue then p.value else "0x0"
        Except.ok (TxData.legacy ⟨p.nonce, p.gasPrice, p.gasLimit, ca, value, some dataStr, p.chainId, p.type⟩)
      | none => Except.error "unreachable"
    else
      Except.ok (TxData.legacy ⟨p.nonce, p.gasPrice, p.gasLimit, p.toAddr, p.value, p.data, p.chainId, p.type⟩)
  else if p.type = 2 then
    if isTruthyStr p.contractAddress then
      match p.contractAddress with
      | some ca => do
        let dataStr ← tokenTransferData p.toAddr p.value
        Except.ok (TxData.feeMarket ⟨p.nonce, p.gasLimit, ca, "0x0", some dataStr, p.chainId, p.type, p.maxPriorityFeePerGas, p.maxFeePerGas⟩)
      | none => Except.error "unreachable"
    else
      Except.ok (TxData.feeMarket ⟨p.nonce, p.gasLimit, p.toAddr, p.value, p.data, p.chainId, p.type, p.maxPriorityFeePerGas, p.maxFeePerGas⟩)
  else if p.type = 4 then
    if isTruthyStr p.contractAddress then
      match p.contractAddress with
      | some ca => do
        let dataStr ← tokenTransferData p.toAddr p.value
        Except.ok (TxData.delegated ⟨p.nonce, p.gasLimit, ca, "0x0", some dataStr, p.chainId, p.type, p.maxPriorityFeePerGas, p.maxFeePerGas, p.authorizationList⟩)
      | none => Except.error "unreachable"
    else
      Except.ok (TxData.delegated ⟨p.nonce, p.gasLimit, p.toAddr, p.value, p.data, p.chainId, p.type, p.maxPriorityFeePerGas, p.maxFeePerGas, p.authorizationList⟩)
  else Except.error "unsupported transaction type"

/-! ## The sdk transaction layer (Modelled from the spec, sections 3 and 4.4: the
vendored ethereumjs transaction classes are not under `src/`) -/

/-- A byte-level authorization tuple as it appears inside a serialized type-4
transaction: `[chainId, address, nonce, yParity, r, s]`. -/
structure AuthTuple where
  chainId : List Nat
  address : List Nat
  nonce : List Nat
  yParity : List Nat
  r : List Nat
  s : List Nat
  deriving DecidableEq, Repr

/-- Byte-level legacy unsigned transaction (fields in minimal big-endian form except the
address and the call data, which are kept as decoded). -/
structure LegacyUnsigned where
  nonce : List Nat
  gasPrice : List Nat
  gasLimit : List Nat
  toAddr : List Nat
  value : List Nat
  data : List Nat
  chainId : List Nat
  deriving DecidableEq, Repr

/-- Byte-level dynamic-fee unsigned transaction (shared by types 2 and 4). -/
structure DynamicUnsigned where
  chainId : List Nat
  nonce : List Nat
  maxPriorityFeePerGas : List Nat
  maxFeePerGas : List Nat
  gasLimit : List Nat
  toAddr : List Nat
  value : List Nat
  data : List Nat
  accessList : RList

/-- The three byte-level unsigned transaction shapes. -/
inductive UnsignedEthTx where
  | legacy : LegacyUnsigned → UnsignedEthTx
  | feeMarket : DynamicUnsigned → UnsignedEthTx
  | delegated : DynamicUnsigned → List AuthTuple → UnsignedEthTx

/-- RLP item of one authorization tuple. -/
def authTupleRItem (a : AuthTuple) : RItem :=
  .list (.cons (.bytes a.chainId) (.cons (.bytes a.address) (.cons (.bytes a.nonce)
    (.cons (.bytes a.yParity) (.cons (.bytes a.r) (.cons (.bytes a.s) .nil))))))

/-- RLP list of an authorization list. -/
def authListRList : List AuthTuple → RList
  | [] => .nil
  | a :: rest => .cons (authTupleRItem a) (authListRList rest)

/-- The EIP-155 signing payload of a legacy transaction:
`[nonce, gasPrice, gasLimit, to, value, data, chainId, 0, 0]`. -/
def legacyUnsignedRItem (l : LegacyUnsigned) : RItem :=
  .list (.cons (.bytes l.nonce) (.cons (.bytes l.gasPrice) (.cons (.bytes l.gasLimit)
    (.cons (.bytes l.toAddr) (.cons (.bytes l.value) (.cons (.bytes l.data)
    (.cons (.bytes l.chainId) (.cons (.bytes []) (.cons (.bytes []) .nil)))))))))

/-- The first eight fields of a dynamic-fee payload, followed by `tail`. -/
def dynamicFieldsRList (t : DynamicUnsigned) (tail : RList) : RList :=
  .cons (.bytes t.chainId) (.cons (.bytes t.nonce) (.cons (.bytes t.maxPriorityFeePerGas)
    (.cons (.bytes t.maxFeePerGas) (.cons (.bytes t.gasLimit) (.cons (.bytes t.toAddr)
    (.cons (.bytes t.value) (.cons (.bytes t.data) tail)))))))

/-- The signing payload list of a type-2 transaction (empty access list built by the
wallet). -/
def feeMarketUnsignedRItem (t : DynamicUnsigned) : RItem :=
  .list (dynamicFieldsRList t (.cons (.list t.accessList) .nil))

/-- The signing payload list of a type-4 transaction. -/
def delegatedUnsignedRItem (t : DynamicUnsigned) (auths : List AuthTuple) : RItem :=
  .list (dynamicFieldsRList t (.cons (.list t.accessList)
    (.cons (.list (authListRList auths)) .nil)))

/-- Modelled from the spec: the canonical unsigned serialization whose keccak256 is the
signing hash — the EIP-155 RLP list for legacy transactions, the type byte `0x02`/`0x04`
followed by the RLP payload for typed transactions. -/
def serializeUnsigned : UnsignedEthTx → List Nat
  | .legacy l => rlpEncode (legacyUnsignedRItem l)
  | .feeMarket t => 2 :: rlpEncode (feeMarketUnsignedRItem t)
  | .delegated t auths => 4 :: rlpEncode (delegatedUnsignedRItem t auths)

/-- Modelled from the spec: the serialization of the signed transaction. A legacy
signature replaces the trailing `chainId, 0, 0` by `{chainId * 2 + 35 + parity}, r, s`;
a typed transaction appends `yParity, r, s`; `r` and `s` are stored without leading zero
bytes. -/
def serializeSigned (u : UnsignedEthTx) (sig : EcdsaSig) : List Nat :=
  match u with
  | .legacy l =>
    rlpEncode (.list (.cons (.bytes l.nonce) (.cons (.bytes l.gasPrice)
      (.cons (.bytes l.gasLimit) (.cons (.bytes l.toAddr) (.cons (.bytes l.value)
      (.cons (.bytes l.data)
      (.cons (.bytes (natToBytesBE (bytesToNatBE l.chainId * 2 + 35 + (sig.v - 27))))
      (.cons (.bytes (unpadBuffer sig.r)) (.cons (.bytes (unpadBuffer sig.s)) .nil))))))))))
  | .feeMarket t =>
    2 :: rlpEncode (.list (dynamicFieldsRList t (.cons (.list t.accessList)
      (.cons (.bytes (if sig.v - 27 = 0 then [] else [1]))
      (.cons (.bytes (unpadBuffer sig.r)) (.cons (.bytes (unpadBuffer sig.s)) .nil))))))
  | .delegated t auths =>
    4 :: rlpEncode (.list (dynamicFieldsRList t (.cons (.list t.accessList)
      (.cons (.list (authListRList auths))
      (.cons (.bytes (if sig.v - 27 = 0 then [] else [1]))
      (.cons (.bytes (unpadBuffer sig.r)) (.cons (.bytes (unpadBuffer sig.s)) .nil)))))))

/-- Extract a legacy unsigned transaction from a decoded nine-item EIP-155 list. -/
def parseLegacyItems : RList → Option LegacyUnsigned
  | .cons (.bytes nonce) (.cons (.bytes gasPrice) (.cons (.bytes gasLimit)
      (.cons (.bytes toAddr) (.cons (.bytes value) (.cons (.bytes data)
      (.cons (.bytes chainId) (.cons (.bytes []) (.cons (.bytes []) .nil)))))))) =>
    some ⟨nonce, gasPrice, gasLimit, toAddr, value, data, chainId⟩
  | _ => none

/-- Extract the authorization tuples from a decoded RLP list. -/
def parseAuthList : RList → Option (List AuthTuple)
  | .nil => some []
  | .cons (.list (.cons (.bytes c) (.cons (.bytes a) (.cons (.bytes n)
      (.cons (.bytes y) (.cons (.bytes r) (.cons (.bytes s) .nil))))))) rest =>
    match parseAuthList rest with
    | some l => some (⟨c, a, n, y, r, s⟩ :: l)
    | none => none
  | _ => none

/-- Extract a dynamic-fee unsigned transaction from a decoded nine-item type-2 list. -/
def parseDynamicItems : RList → Option DynamicUnsigned
  | .cons (.bytes chainId) (.cons (.bytes nonce) (.cons (.bytes mp) (.cons (.bytes mf)
      (.cons (.bytes gl) (.cons (.bytes toAddr) (.cons (.bytes v) (.cons (.bytes dt)
      (.cons (.list al) .nil)))))))) =>
    some ⟨chainId, nonce, mp, mf, gl, toAddr, v, dt, al⟩
  | _ => none

/-- Extract a dynamic-fee unsigned transaction and its authorization list from a decoded
ten-item type-4 list. -/
def parseDelegatedItems : RList → Option (DynamicUnsigned × List AuthTuple)
  | .cons (.bytes chainId) (.cons (.bytes nonce) (.cons (.bytes mp) (.cons (.bytes mf)
      (.cons (.bytes gl) (.cons (.bytes toAddr) (.cons (.bytes v) (.cons (.bytes dt)
      (.cons (.list al) (.cons (.list auths) .nil))))))))) =>
    match parseAuthList auths with
    | some l => some (⟨chainId, nonce, mp, mf, gl, toAddr, v, dt, al⟩, l)
    | none => none
  | _ => none

/-- Modelled from the spec: decoding the serialized bytes of an unsigned transaction back
into its typed form (the phase-2 re-derivation of the MPC and hardware flows) — the type
byte selects the shape, the rest is RLP-decoded and matched against it. -/
def parseUnsigned (bs : List Nat) : Option UnsignedEthTx :=
  match bs with
  | [] => none
  | b :: rest =>
    if b = 2 then
      match rlpDecodeOne (3 * rest.length + 3) rest with
      | some (.list items, []) =>
        match parseDynamicItems items with
        | some t => some (.feeMarket t)
        | none => none
      | _ => none
    else if b = 4 then
      match rlpDecodeOne (3 * rest.length + 3) rest with
      | some (.list items, []) =>
        match parseDelegatedItems items with
        | some p => some (.delegated p.1 p.2)
        | none => none
      | _ => none
    else if 192 ≤ b then
      match rlpDecodeOne (3 * (b :: rest).length + 3) (b :: rest) with
      | some (.list items, []) =>
        match parseLegacyItems items with
        | some l => some (.legacy l)
        | none => none
      | _ => none
    else none

/-- Convert a hex field of a txData object to its minimal big-endian bytes. -/
def numFieldBytes (s : String) : Except String (List Nat) :=
  (fromHex s).map unpadBytes

/-- Modelled from the spec: the validation the ethereumjs transaction class applies to an
authorization item — every numeric field must carry no leading zero byte
(`validateNoLeadingZeroes`), the fields are decoded from hex as is. -/
def authTupleOfItem (a : AuthorizationListItem) : Except String AuthTuple := do
  let c ← fromHex a.chainId
  let ad ← fromHex a.address
  let n ← fromHex a.nonce
  let y ← fromHex a.yParity
  let r ← fromHex a.r
  let s ← fromHex a.s
  if c.head? = some 0 ∨ n.head? = some 0 ∨ y.head? = some 0 ∨ r.head? = some 0 ∨ s.head? = some 0 then
    Except.error "leading zero bytes"
  else Except.ok ⟨c, ad, n, y, r, s⟩

/-- `authTupleOfItem` over a whole authorization list. -/
def authTuplesOfItems : List AuthorizationListItem → Except String (List AuthTuple)
  | [] => Except.ok []
  | a :: rest => do
    let t ← authTupleOfItem a
    let l ← authTuplesOfItems rest
    Except.ok (t :: l)

/-- Modelled from the spec: how the ethereumjs transaction classes normalize a txData
object — every numeric hex field to minimal big-endian bytes, the `to` address and call
data kept exactly as decoded, a missing data field as empty bytes, and an empty access
list for the typed shapes (the wallet never passes one). -/
def toUnsignedEthTx : TxData → Except String UnsignedEthTx
  | .legacy t => do
    let nonce ← numFieldBytes t.nonce
    let gasPrice ← numFieldBytes t.gasPrice
    let gasLimit ← numFieldBytes t.gasLimit
    let toAddr ← fromHex t.toAddr
    let value ← numFieldBytes t.value
    let data ← (match t.data with
                | some s => fromHex s
                | none => Except.ok [])
    let chainId ← numFieldBytes t.chainId
    Except.ok (.legacy ⟨nonce, gasPrice, gasLimit, toAddr, value, data, chainId⟩)
  | .feeMarket t => do
    let chainId ← numFieldBytes t.chainId
    let nonce ← numFieldBytes t.nonce
    let mp ← numFieldBytes t.maxPriorityFeePerGas
    let mf ← numFieldBytes t.maxFeePerGas
    let gasLimit ← numFieldBytes t.gasLimit
    let toAddr ← fromHex t.toAddr
    let value ← numFieldBytes t.value
    let data ← (match t.data with
                | some s => fromHex s
                | none => Except.ok [])
    Except.ok (.feeMarket ⟨chainId, nonce, mp, mf, gasLimit, toAddr, value, data, .nil⟩)
  | .delegated t => do
    let chainId ← numFieldBytes t.chainId
    let nonce ← numFieldBytes t.nonce
    let mp ← numFieldBytes t.maxPriorityFeePerGas
    let mf ← numFieldBytes t.maxFeePerGas
    let gasLimit ← numFieldBytes t.gasLimit
    let toAddr ← fromHex t.toAddr
    let value ← numFieldBytes t.value
    let data ← (match t.data with
                | some s => fromHex s
                | none => Except.ok [])
    let auths ← authTuplesOfItems t.authorizationList
    Except.ok (.delegated ⟨chainId, nonce, mp, mf, gasLimit, toAddr, value, data, .nil⟩ auths)

/-- The result object of `eth.signTransaction`: the serialized transaction (`raw`), its
hash, and the unsigned serialization used by the hardware flow (`serializeRaw`). -/
structure SignTxResult where
  raw : String
  hash : String
  serializeRaw : String
  deriving DecidableEq, Repr

/-- Modelled from the spec: `eth.signTransaction` of the sdk (not under `src/`).
With a truthy key: serialize the unsigned transaction, hash it with keccak256, sign the
hash, serialize the signed transaction, and return it with its keccak256 hash. With no
key (the MPC phase 1): stop at the hashed phase, returning the unsigned serialization
and the signing hash. -/
def ethSignTransactionCore (S : Secp) (pk : Option String) (td : TxData) :
    Except String SignTxResult := do
  let u ← toUnsignedEthTx td
  let msg := serializeUnsigned u
  match pk with
  | none => Except.ok ⟨bytesToHex msg, bytesToHex (S.keccak256 msg), bytesToHex msg⟩
  | some s =>
    if s = "" then Except.ok ⟨bytesToHex msg, bytesToHex (S.keccak256 msg), bytesToHex msg⟩
    else do
      let kb ← fromHex s
      if kb.length = 32 then
        let sig := S.ecdsaSign (S.keccak256 msg) kb
        let sbytes := serializeSigned u sig
        Except.ok ⟨bytesToHex sbytes, bytesToHex (S.keccak256 sbytes), bytesToHex msg⟩
      else Except.error "invalid private key length"

/-! ## EthWallet public operations (source lines 133–236, 353–413) -/

/-- Parameters of `EthWallet.signTransaction`. -/
structure EthSignTxParams where
  privateKey : Option String
  data : EthTxDataIn
  deriving DecidableEq, Repr

/-- The private-key guard at the top of the try block (source lines 135–138): a truthy
key must hex-decode to exactly 32 bytes (`assertBufferLength` throws otherwise). -/
def checkPrivateKey (pk : Option String) : Except String Unit :=
  match pk with
  | none => Except.ok ()
  | some s =>
    if s = "" then Except.ok ()
    else
      match fromHex s with
      | Except.error e => Except.error e
      | Except.ok kb =>
        if kb.length = 32 then Except.ok () else Except.error "Invalid buffer length"

/-- The try block of `EthWallet.signTransaction` (source lines 134–232). -/
def ethSignTransactionTry (S : Secp) (p : EthSignTxParams) : Except String SignTxResult := do
  let _ ← checkPrivateKey p.privateKey
  let td ← signTransactionTxData p.data
  ethSignTransactionCore S p.privateKey td

/-- `EthWallet.signTransaction` (source lines 133–236): every failure inside the try
block — including the unsupported-type rejection on line 232 — surfaces as the single
typed constant `SignTxError`. -/
def ethSignTransaction (S : Secp) (p : EthSignTxParams) : Except WalletError SignTxResult :=
  match ethSignTransactionTry S p with
  | Except.ok r => Except.ok r
  | Except.error _ => Except.error .SignTxError

/-- The result of `EthWallet.getMPCRawTransaction`: the raw context and the hash to sign. -/
structure MpcRawResult where
  raw : String
  hash : String
  deriving DecidableEq, Repr

/-- `EthWallet.getMPCRawTransaction` (source lines 353–363). -/
def getMPCRawTransaction (S : Secp) (p : EthSignTxParams) : Except WalletError MpcRawResult :=
  match ethSignTransaction S p with
  | Except.ok r => Except.ok ⟨r.raw, r.hash⟩
  | Except.error _ => Except.error .GetMpcRawTransactionError

/-- Modelled from the spec: `eth.getMPCTransaction` of the sdk (not under `src/`):
re-derive the signing hash deterministically from the raw unsigned bytes, split the
external signature into its two 32-byte scalars, recover the parity by matching the
signer's public key, and serialize the signed transaction. -/
def ethGetMPCTransactionCore (S : Secp) (raw sigs pub : String) : Except String String := do
  let bs ← fromHex raw
  match parseUnsigned bs with
  | none => Except.error "could not decode the raw transaction"
  | some u => do
    let msgHash := S.keccak256 bs
    let sigBytes ← fromHex sigs
    if sigBytes.length = 64 then do
      let r := sigBytes.take 32
      let s := sigBytes.drop 32
      let pubBytes ← fromHex pub
      if S.ecdsaRecover msgHash r s 0 == pubBytes then
        Except.ok (bytesToHex (serializeSigned u ⟨27, r, s⟩))
      else if S.ecdsaRecover msgHash r s 1 == pubBytes then
        Except.ok (bytesToHex (serializeSigned u ⟨28, r, s⟩))
      else Except.error "could not recover the public key"
    else Except.error "invalid signature length"

/-- `EthWallet.getMPCTransaction` (source lines 365–372). -/
def getMPCTransaction (S : Secp) (raw sigs pub : String) : Except WalletError String :=
  match ethGetMPCTransactionCore S raw sigs pub with
  | Except.ok r => Except.ok r
  | Except.error _ => Except.error .GetMpcTransactionError

/-- `EthWallet.getHardWareRawTransaction` (source lines 391–398): phase 1 of the hardware
flow returns the unsigned serialization. -/
def getHardWareRawTransaction (S : Secp) (p : EthSignTxParams) : Except WalletError String :=
  match ethSignTransaction S p with
  | Except.ok r => Except.ok r.serializeRaw
  | Except.error _ => Except.error .GetHardwareRawTransactionError

/-- Modelled from the spec: `eth.getSignedTransaction` of the sdk (not under `src/`):
decode the raw unsigned bytes and serialize the signed transaction with the
hardware-supplied signature components. -/
def ethGetSignedTransactionCore (raw rHex sHex : String) (v : Nat) :
    Except String String := do
  let bs ← fromHex raw
  match parseUnsigned bs with
  | none => Except.error "could not decode the raw transaction"
  | some u => do
    let rb ← fromHex rHex
    let sb ← fromHex sHex
    Except.ok (bytesToHex (serializeSigned u ⟨v, rb, sb⟩))

/-- `EthWallet.getHardWareSignedTransaction` (source lines 401–407). -/
def getHardWareSignedTransaction (raw rHex sHex : String) (v : Nat) :
    Except WalletError String :=
  match ethGetSignedTransactionCore raw rHex sHex v with
  | Except.ok r => Except.ok r
  | Except.error _ => Except.error .GetHardwareSignedTransactionError

/-- Whether serialized bytes decode as some signed-or-unsigned transaction envelope
(typed prefix with an RLP list, or a bare RLP list). -/
def decodesAsTransaction (bs : List Nat) : Bool :=
  match bs with
  | [] => false
  | b :: rest =>
    if b = 1 ∨ b = 2 ∨ b = 4 then
      match rlpDecodeOne (3 * rest.length + 3) rest with
      | some (.list _, []) => true
      | _ => false
    else if 192 ≤ b then
      match rlpDecodeOne (3 * (b :: rest).length + 3) (b :: rest) with
      | some (.list _, []) => true
      | _ => false
    else false

/-- Modelled from the spec: `eth.TransactionFactory.fromSerializedData` followed by
`.hash()` — a decode failure throws, a decoded transaction's hash is the keccak256 of the
serialized bytes. -/
def fromSerializedDataHash (S : Secp) (bs : List Nat) : Except String (List Nat) :=
  if decodesAsTransaction bs then Except.ok (S.keccak256 bs)
  else Except.error "could not decode the serialized data"

/-- `EthWallet.calcTxHash` (source lines 409–413). The source has no try/catch here: a
decoding failure rejects with the raw lower-level exception, not with a typed error. -/
def ethCalcTxHash (S : Secp) (dataHex : String) : Except WalletError String :=
  match fromHex dataHex with
  | Except.error e => Except.error (.rawException e)
  | Except.ok bs =>
    match fromSerializedDataHash S bs with
    | Except.error e => Except.error (.rawException e)
    | Except.ok h => Except.ok (toHexPrefixed h)

mutual
/-- Every payload byte of an RLP item is a byte value (below 256). -/
def rlpLT256 : RItem → Bool
  | .bytes bs => bs.all (fun b => b < 256)
  | .list xs => rlpLT256List xs
/-- `rlpLT256` for every item of a list. -/
def rlpLT256List : RList → Bool
  | .nil => true
  | .cons x xs => rlpLT256 x && rlpLT256List xs
end

/-- The RLP list underlying the unsigned serialization of a transaction. -/
def unsignedTxRItem : UnsignedEthTx → RItem
  | .legacy l => legacyUnsignedRItem l
  | .feeMarket t => feeMarketUnsignedRItem t
  | .delegated t auths => delegatedUnsignedRItem t auths

/-- The type-byte prefix of the unsigned serialization. -/
def unsignedTxIdByte : UnsignedEthTx → List Nat
  | .legacy _ => []
  | .feeMarket _ => [2]
  | .delegated _ _ => [4]

/-- Every length field of the unsigned serialization fits in eight bytes. -/
def unsignedTxBounded (u : UnsignedEthTx) : Bool := rlpBounded (unsignedTxRItem u)

/-- Every field byte of the unsigned transaction is a byte value. -/
def unsignedTxLT256 (u : UnsignedEthTx) : Bool := rlpLT256 (unsignedTxRItem u)

/-! ## SuiWallet (source lines 453–616) -/

/-- A Sui input-coin reference (`SuiObjectRef`). -/
structure SuiObjectRef where
  objectId : String
  version : Nat
  digest : String
  deriving DecidableEq, Repr

/-- The `PaySuiTransaction` parameter object (source lines 453–467). -/
structure PaySuiTransaction where
  inputCoins : Option (List SuiObjectRef)
  recipient : String
  amount : String
  gasBudget : String
  gasPrice : String
  epoch : Option Nat
  deriving DecidableEq, Repr

/-- The `SuiSignData` union: the `type` discriminant string selects a raw base64
transaction block or a paySUI convenience build. -/
inductive SuiSignData where
  | raw : String → SuiSignData
  | paySUI : PaySuiTransaction → SuiSignData
  deriving DecidableEq, Repr

/-- Parameters of `SuiWallet.signTransaction`. -/
structure SuiSignTxParams where
  privateKey : String
  data : SuiSignData
  deriving DecidableEq, Repr

/-- Modelled from the spec: the sui sdk collaborators of `SuiWallet` (not under `src/`),
abstracted as a backend record: private-key decoding plus keypair construction
(`tryDecodeSuiPrivateKey` / `Ed25519Keypair.fromSeed`), address derivation, the
transaction-block build of the paySUI flow (split coin, transfer, serialize), ed25519
block signing, and the transaction digest. -/
structure SuiBackend where
  keyFromString : String → Except String (List Nat)
  deriveAddress : List Nat → String
  buildPayBlock : PaySuiTransaction → String → Except String (List Nat)
  signBlock : List Nat → List Nat → String
  getDigestFromBytes : List Nat → String

/-- `SuiWallet.signTransaction` (source lines 551–591). The key decoding and the
empty-input-coin rejection happen synchronously inside the try block and reject with the
shared `SignTxError`; a failure of the asynchronous block build escapes the catch and
rejects with the raw error. -/
def suiSignTransaction (B : SuiBackend) (p : SuiSignTxParams) : Except WalletError String :=
  match B.keyFromString p.privateKey with
  | Except.error _ => Except.error .SignTxError
  | Except.ok key =>
    match p.data with
    | .raw s =>
      match fromBase64 s with
      | Except.error _ => Except.error .SignTxError
      | Except.ok d => Except.ok (B.signBlock key d)
    | .paySUI tx =>
      match tx.inputCoins with
      | none => Except.error .SignTxError
      | some [] => Except.error .SignTxError
      | some _ =>
        let sender := B.deriveAddress key
        match B.buildPayBlock tx sender with
        | Except.ok blockBytes => Except.ok (B.signBlock key blockBytes)
        | Except.error e => Except.error (.rawException e)

/-- The result object of `validAddress`. -/
structure ValidAddressData where
  isValid : Bool
  address : String
  deriving DecidableEq, Repr

/-- `SuiWallet.validAddress` (source lines 593–607): always resolves, echoing the input
address; `isValid` is true exactly when `base.fromHex` decodes the string to 32 bytes,
and a decoding throw is caught into `isValid = false`. -/
def suiValidAddress (addr : String) : Except WalletError ValidAddressData :=
  Except.ok
    { isValid := (match fromHex addr with
                  | Except.ok bs => bs.length == 32
                  | Except.error _ => false)
      address := addr }

/-- `SuiWallet.calcTxHash` (source lines 609–616): any failure of the try block is
mapped to the typed `CalcTxHashError`. -/
def suiCalcTxHash (B : SuiBackend) (data : String) : Except WalletError String :=
  match fromBase64 data with
  | Except.ok bs => Except.ok (B.getDigestFromBytes bs)
  | Except.error _ => Except.error .CalcTxHashError

/-! ## Trivial concrete backends used by the witnesses -/

/-- A trivial concrete secp backend: all primitives are simple total functions; the
signature has parity 0 and 32-byte scalars, and parity recovery at 0 returns the
(trivial) public key while parity 1 does not. -/
def trivSecp : Secp :=
  { keccak256 := fun bs => [bs.length % 256]
    ecdsaSign := fun _ _ => ⟨27, List.replicate 32 1, List.replicate 32 2⟩
    ecdsaRecover := fun _ _ _ i => if i = 0 then [7] else [8]
    pubFromKey := fun _ => [7] }

/-- A trivial concrete sui backend. -/
def trivSui : SuiBackend :=
  { keyFromString := fun s => if s = "" then Except.error "bad key" else Except.ok [1]
    deriveAddress := fun _ => "0x2"
    buildPayBlock := fun _ _ => Except.ok [3]
    signBlock := fun _ _ => "signed"
    getDigestFromBytes := fun bs => toHexPrefixed bs }

/-! ## Helper lemmas: hex round trips and numeric codecs -/

theorem hexVal_hexDigitChar : ∀ n : Nat, n < 16 → hexVal (hexDigitChar n) = some n := by
  decide

theorem bytesToHexBody_length (bs : List Nat) : (bytesToHexBody bs).length = 2 * bs.length := by
  induction bs with
  | nil => rfl
  | cons b t ih => simp [bytesToHexBody, byteHexChars, ih]; omega

theorem pairsToBytes_hexBody (bs : List Nat) (h : bs.all (fun b => b < 256) = true) :
    pairsToBytes (bytesToHexBody bs) = some bs := by
  induction bs with
  | nil => rfl
  | cons b t ih =>
    simp only [List.all_cons, Bool.and_eq_true, decide_eq_true_eq] at h
    have hb : b < 256 := h.1
    have h1 : b % 256 / 16 < 16 := by omega
    have h2 : b % 16 < 16 := by omega
    have h3 : 16 * (b % 256 / 16) + b % 16 = b := by omega
    simp [bytesToHexBody, byteHexChars, pairsToBytes,
      hexVal_hexDigitChar _ h1, hexVal_hexDigitChar _ h2, ih h.2, h3]

theorem padOddNibbles_even (l : List Char) (h : l.length % 2 = 0) : padOddNibbles l = l := by
  simp [padOddNibbles, h]

theorem fromHex_bytesToHex (bs : List Nat) (h : bs.all (fun b => b < 256) = true) :
    fromHex (bytesToHex bs) = Except.ok bs := by
  have hlen : (bytesToHexBody bs).length % 2 = 0 := by
    rw [bytesToHexBody_length]; omega
  simp [fromHex, bytesToHex, strip0x, padOddNibbles_even _ hlen, pairsToBytes_hexBody bs h]

theorem hexVal_lt16 (c : Char) (n : Nat) (h : hexVal c = some n) : n < 16 := by
  unfold hexVal at h
  split at h
  · cases h; omega
  · split at h
    · cases h; omega
    · split at h
      · cases h; omega
      · cases h

theorem pairsToBytes_lt256 : ∀ (l : List Char) (bs : List Nat),
    pairsToBytes l = some bs → bs.all (fun b => b < 256) = true
  | [], bs, h => by
    simp only [pairsToBytes, Option.some.injEq] at h
    simp [← h]
  | [_], bs, h => by
    simp only [pairsToBytes] at h
    exact Option.noConfusion h
  | c1 :: c2 :: rest, bs, h => by
    simp only [pairsToBytes] at h
    cases h1 : hexVal c1 with
    | none => rw [h1] at h; cases h
    | some v1 =>
      cases h2 : hexVal c2 with
      | none => rw [h1, h2] at h; cases h
      | some v2 =>
        cases h3 : pairsToBytes rest with
        | none => rw [h1, h2, h3] at h; cases h
        | some tl =>
          rw [h1, h2, h3] at h
          simp only [Option.some.injEq] at h
          subst h
          have hv1 := hexVal_lt16 c1 v1 h1
          have hv2 := hexVal_lt16 c2 v2 h2
          simp only [List.all_cons, Bool.and_eq_true, decide_eq_true_eq]
          exact ⟨by omega, pairsToBytes_lt256 rest tl h3⟩

theorem fromHex_ok_lt256 (s : String) (bs : List Nat) (h : fromHex s = Except.ok bs) :
    bs.all (fun b => b < 256) = true := by
  unfold fromHex at h
  cases hp : pairsToBytes (padOddNibbles (strip0x s.data)) with
  | none => rw [hp] at h; cases h
  | some l =>
    rw [hp] at h
    simp only [Except.ok.injEq] at h
    subst h
    exact pairsToBytes_lt256 _ _ hp

theorem hexToBytes_ok_lt256 (s : String) (bs : List Nat) (h : hexToBytes s = Except.ok bs) :
    bs.all (fun b => b < 256) = true := by
  unfold hexToBytes at h
  split at h
  · rename_i body heq
    cases hp : pairsToBytes (padOddNibbles body) with
    | none => rw [hp] at h; cases h
    | some l =>
      rw [hp] at h
      simp only [Except.ok.injEq] at h
      subst h
      exact pairsToBytes_lt256 _ _ hp
  · cases h

theorem bytesToNatBE_append_one (l : List Nat) (b : Nat) :
    bytesToNatBE (l ++ [b]) = bytesToNatBE l * 256 + b % 256 := by
  simp [bytesToNatBE, List.foldl_append]

theorem bytesToNatBE_natBytesAux : ∀ (fuel n : Nat), n ≤ fuel →
    bytesToNatBE (natBytesAux fuel n) = n := by
  intro fuel
  induction fuel with
  | zero => intro n h; interval_cases n; rfl
  | succ f ih =>
    intro n h
    by_cases h0 : n = 0
    · subst h0; simp [natBytesAux, bytesToNatBE]
    · have hdiv : n / 256 ≤ f := by omega
      simp only [natBytesAux, h0, if_false, bytesToNatBE_append_one, ih _ hdiv]
      omega

theorem bytesToNatBE_natToBytesBE (n : Nat) : bytesToNatBE (natToBytesBE n) = n :=
  bytesToNatBE_natBytesAux n n (Nat.le_refl n)

theorem natBytesAux_length : ∀ (fuel n k : Nat), n ≤ fuel → n < 256 ^ k →
    (natBytesAux fuel n).length ≤ k := by
  intro fuel
  induction fuel with
  | zero => intro n k _ _; simp [natBytesAux]
  | succ f ih =>
    intro n k h hk
    by_cases h0 : n = 0
    · subst h0; simp [natBytesAux]
    · have hkpos : k ≠ 0 := by
        intro hk0; subst hk0; simp at hk; omega
      obtain ⟨k', rfl⟩ : ∃ k', k = k' + 1 := ⟨k - 1, by omega⟩
      have hdiv : n / 256 ≤ f := by omega
      have hdivk : n / 256 < 256 ^ k' := by
        rw [pow_succ] at hk
        exact Nat.div_lt_of_lt_mul (by omega)
      simp only [natBytesAux, h0, if_false, List.length_append, List.length_cons,
        List.length_nil]
      have := ih (n / 256) k' hdiv hdivk
      omega

theorem natToBytesBE_length_le (n k : Nat) (h : n < 256 ^ k) :
    (natToBytesBE n).length ≤ k :=
  natBytesAux_length n n k (Nat.le_refl n) h

theorem natBytesAux_ne_nil (fuel n : Nat) (hf : 0 < fuel) (hn : 0 < n) :
    natBytesAux fuel n ≠ [] := by
  obtain ⟨f, rfl⟩ : ∃ f, fuel = f + 1 := ⟨fuel - 1, by omega⟩
  simp [natBytesAux, Nat.pos_iff_ne_zero.mp hn]

theorem natToBytesBE_ne_nil (n : Nat) (hn : 0 < n) : natToBytesBE n ≠ [] :=
  natBytesAux_ne_nil n n hn hn

theorem natBytesAux_lt256 : ∀ (fuel n : Nat), (natBytesAux fuel n).all (fun b => b < 256) = true := by
  intro fuel
  induction fuel with
  | zero => intro n; rfl
  | succ f ih =>
    intro n
    by_cases h0 : n = 0
    · subst h0; rfl
    · simp only [natBytesAux, h0, if_false, List.all_append, Bool.and_eq_true, ih]
      simp; omega

theorem natToBytesBE_lt256 (n : Nat) : (natToBytesBE n).all (fun b => b < 256) = true :=
  natBytesAux_lt256 n n

/-! ## Helper lemmas: stripping leading zero digits preserves the denoted value -/

theorem hexCharsVal_dropZero (l : List Char) :
    hexCharsVal (l.dropWhile (fun c => c == '0')) = hexCharsVal l := by
  induction l with
  | nil => rfl
  | cons c t ih =>
    by_cases hc : c = '0'
    · subst hc
      have hz : (hexVal '0').getD 0 = 0 := by decide
      simp only [List.dropWhile]
      rw [show (('0' == '0') : Bool) = true from by decide]
      rw [ih]
      simp [hexCharsVal, hz]
    · simp only [List.dropWhile]
      rw [show ((c == '0') : Bool) = false from by simp [hc]]

theorem hexCharsVal_all_zero (l : List Char) (h : l.dropWhile (fun c => c == '0') = []) :
    hexCharsVal l = 0 := by
  rw [← hexCharsVal_dropZero, h]; rfl

theorem hexStrVal_two_prefix (l : List Char) :
    hexStrVal (String.mk ('0' :: 'x' :: l)) = hexCharsVal l := rfl

theorem hexStrVal_toRpcHex_body (l : List Char) :
    hexStrVal (toRpcHex (String.mk ('0' :: 'x' :: l))) = hexCharsVal l := by
  have h1 : toRpcHex (String.mk ('0' :: 'x' :: l)) =
      String.mk ('0' :: 'x' :: (if (l.dropWhile (fun c => c == '0')).isEmpty then ['0']
        else l.dropWhile (fun c => c == '0'))) := rfl
  rw [h1, hexStrVal_two_prefix]
  by_cases h : l.dropWhile (fun c => c == '0') = []
  · rw [h]
    simp only [List.isEmpty_nil, if_true]
    rw [hexCharsVal_all_zero l h]
    decide
  · rw [show ((l.dropWhile (fun c => c == '0')).isEmpty) = false from by
      simp [List.isEmpty_iff, h]]
    simp only [Bool.false_eq_true, if_false]
    exact hexCharsVal_dropZero l

/-! ## Helper lemmas: the RLP decoder inverts the RLP encoder -/

theorem rlpEncode_bytes_nil : rlpEncode (.bytes []) = [128] := by
  simp [rlpEncode, encLen]

theorem rlpEncode_bytes_single (b : Nat) :
    rlpEncode (.bytes [b]) = if b < 128 then [b] else [129, b] := by
  simp [rlpEncode]

theorem rlpEncode_bytes_general (bs : List Nat) (h : bs.length ≠ 1) :
    rlpEncode (.bytes bs) = encLen 128 bs.length ++ bs := by
  cases bs with
  | nil => simp [rlpEncode, encLen]
  | cons b t =>
    cases t with
    | nil => simp at h
    | cons c t2 => simp [rlpEncode]

theorem rlpEncode_list_def (xs : RList) :
    rlpEncode (.list xs) = encLen 192 (rlpEncodeList xs).length ++ rlpEncodeList xs := by
  simp [rlpEncode]

theorem rlpEncodeList_nil : rlpEncodeList .nil = [] := by simp [rlpEncodeList]

theorem rlpEncodeList_cons (x : RItem) (xs : RList) :
    rlpEncodeList (.cons x xs) = rlpEncode x ++ rlpEncodeList xs := by
  simp [rlpEncodeList]

theorem encLen_length_pos (offset len : Nat) : 1 ≤ (encLen offset len).length := by
  unfold encLen
  split <;> simp

theorem rlpEncode_length_pos (x : RItem) : 1 ≤ (rlpEncode x).length := by
  cases x with
  | bytes bs =>
    by_cases h : bs.length = 1
    · cases bs with
      | nil => simp at h
      | cons b t =>
        cases t with
        | nil => rw [rlpEncode_bytes_single]; split <;> simp
        | cons c t2 => simp at h
    · rw [rlpEncode_bytes_general bs h]
      have := encLen_length_pos 128 bs.length
      simp only [List.length_append]
      omega
  | list xs =>
    rw [rlpEncode_list_def]
    have := encLen_length_pos 192 (rlpEncodeList xs).length
    simp only [List.length_append]
    omega

theorem rlpEncode_ne_nil (x : RItem) : rlpEncode x ≠ [] := by
  intro h
  have := rlpEncode_length_pos x
  rw [h] at this
  simp at this

mutual
theorem rlpNodes_le (x : RItem) : rlpNodes x + 1 ≤ 3 * (rlpEncode x).length := by
  cases x with
  | bytes bs =>
    have := rlpEncode_length_pos (.bytes bs)
    simp only [rlpNodes]
    omega
  | list xs =>
    have h1 := rlpNodesList_le xs
    have h2 := encLen_length_pos 192 (rlpEncodeList xs).length
    rw [rlpEncode_list_def]
    simp only [rlpNodes, List.length_append]
    omega
theorem rlpNodesList_le (xs : RList) : rlpNodesList xs ≤ 3 * (rlpEncodeList xs).length + 1 := by
  cases xs with
  | nil => simp [rlpNodesList, rlpEncodeList_nil]
  | cons x xs =>
    have h1 := rlpNodes_le x
    have h2 := rlpNodesList_le xs
    rw [rlpEncodeList_cons]
    simp only [rlpNodesList, List.length_append]
    omega
end

theorem rlpBounded_bytes (bs : List Nat) (h : rlpBounded (.bytes bs) = true) :
    bs.length < 2 ^ 64 := by
  simp [rlpBounded] at h
  exact h

theorem rlpBounded_list (xs : RList) (h : rlpBounded (.list xs) = true) :
    (rlpEncodeList xs).length < 2 ^ 64 ∧ rlpBoundedList xs = true := by
  simp [rlpBounded] at h
  exact h

theorem rlpBoundedList_cons (x : RItem) (xs : RList) (h : rlpBoundedList (.cons x xs) = true) :
    rlpBounded x = true ∧ rlpBoundedList xs = true := by
  simp [rlpBoundedList] at h
  exact h

mutual
theorem rlpDecodeOne_encode (x : RItem) : ∀ (rest : List Nat) (fuel : Nat),
    rlpBounded x = true → rlpNodes x ≤ fuel →
    rlpDecodeOne fuel (rlpEncode x ++ rest) = some (x, rest) := by
  intro rest fuel hb hf
  cases x with
  | bytes bs =>
    simp only [rlpNodes] at hf
    obtain ⟨f, rfl⟩ : ∃ f, fuel = f + 1 := ⟨fuel - 1, by omega⟩
    by_cases h1 : bs.length = 1
    · obtain ⟨b, rfl⟩ : ∃ b, bs = [b] := by
        cases bs with
        | nil => simp at h1
        | cons b t =>
          cases t with
          | nil => exact ⟨b, rfl⟩
          | cons c t2 => simp at h1
      rw [rlpEncode_bytes_single]
      by_cases hb128 : b < 128
      · rw [if_pos hb128]
        simp only [List.cons_append, List.nil_append, rlpDecodeOne]
        rw [if_pos hb128]
      · rw [if_neg hb128]
        simp only [List.cons_append, List.nil_append, rlpDecodeOne]
        rw [if_neg (by omega), if_pos (by norm_num)]
        have h129 : (129 : Nat) - 128 = 1 := by norm_num
        rw [h129]
        rw [if_pos (by simp)]
        simp
    · rw [rlpEncode_bytes_general bs h1]
      have hlt := rlpBounded_bytes bs hb
      by_cases hshort : bs.length ≤ 55
      · rw [show encLen 128 bs.length = [128 + bs.length] from by simp [encLen, hshort]]
        simp only [List.cons_append, List.nil_append, rlpDecodeOne]
        rw [if_neg (by omega), if_pos (by omega)]
        rw [show 128 + bs.length - 128 = bs.length from by omega]
        rw [if_pos (by simp)]
        rw [List.take_left, List.drop_left]
      · have hll1 : natToBytesBE bs.length ≠ [] := natToBytesBE_ne_nil _ (by omega)
        have hll8 : (natToBytesBE bs.length).length ≤ 8 :=
          natToBytesBE_length_le _ 8 (by norm_num at hlt ⊢; omega)
        have hllpos : 1 ≤ (natToBytesBE bs.length).length := by
          cases hnb : natToBytesBE bs.length with
          | nil => exact absurd hnb hll1
          | cons a t => simp
        rw [show encLen 128 bs.length =
          (128 + 55 + (natToBytesBE bs.length).length) :: natToBytesBE bs.length from by
            simp [encLen, hshort]]
        simp only [List.cons_append, List.append_assoc, rlpDecodeOne]
        rw [if_neg (by omega), if_neg (by omega), if_pos (by omega)]
        rw [show 128 + 55 + (natToBytesBE bs.length).length - 183 =
          (natToBytesBE bs.length).length from by omega]
        rw [if_pos (by simp only [List.length_append]; omega)]
        simp only [List.take_left, List.drop_left]
        rw [bytesToNatBE_natToBytesBE]
        rw [if_pos (by simp only [List.length_append]; omega)]
        rw [List.take_left, List.drop_left]
  | list xs =>
    simp only [rlpNodes] at hf
    obtain ⟨f, rfl⟩ : ∃ f, fuel = f + 1 := ⟨fuel - 1, by omega⟩
    obtain ⟨hlen, hbl⟩ := rlpBounded_list xs hb
    have hitems : rlpDecodeItems f (rlpEncodeList xs) = some xs :=
      rlpDecodeItems_encode xs f hbl (by omega)
    rw [rlpEncode_list_def]
    by_cases hshort : (rlpEncodeList xs).length ≤ 55
    · rw [show encLen 192 (rlpEncodeList xs).length =
        [192 + (rlpEncodeList xs).length] from by simp [encLen, hshort]]
      simp only [List.cons_append, List.nil_append, rlpDecodeOne]
      rw [if_neg (by omega), if_neg (by omega), if_neg (by omega), if_pos (by omega)]
      rw [show 192 + (rlpEncodeList xs).length - 192 = (rlpEncodeList xs).length from by omega]
      rw [if_pos (by simp)]
      rw [List.take_left, List.drop_left, hitems]
    · have hll1 : natToBytesBE (rlpEncodeList xs).length ≠ [] := natToBytesBE_ne_nil _ (by omega)
      have hll8 : (natToBytesBE (rlpEncodeList xs).length).length ≤ 8 :=
        natToBytesBE_length_le _ 8 (by norm_num at hlen ⊢; omega)
      have hllpos : 1 ≤ (natToBytesBE (rlpEncodeList xs).length).length := by
        cases hnb : natToBytesBE (rlpEncodeList xs).length with
        | nil => exact absurd hnb hll1
        | cons a t => simp
      rw [show encLen 192 (rlpEncodeList xs).length =
        (192 + 55 + (natToBytesBE (rlpEncodeList xs).length).length) ::
          natToBytesBE (rlpEncodeList xs).length from by simp [encLen, hshort]]
      simp only [List.cons_append, List.append_assoc, rlpDecodeOne]
      rw [if_neg (by omega), if_neg (by omega), if_neg (by omega), if_neg (by omega)]
      rw [show 192 + 55 + (natToBytesBE (rlpEncodeList xs).length).length - 247 =
        (natToBytesBE (rlpEncodeList xs).length).length from by omega]
      rw [if_pos (by simp only [List.length_append]; omega)]
      simp only [List.take_left, List.drop_left]
      rw [bytesToNatBE_natToBytesBE]
      rw [if_pos (by simp only [List.length_append]; omega)]
      rw [List.take_left, List.drop_left, hitems]
theorem rlpDecodeItems_encode (xs : RList) : ∀ (fuel : Nat),
    rlpBoundedList xs = true → rlpNodesList xs ≤ fuel →
    rlpDecodeItems fuel (rlpEncodeList xs) = some xs := by
  intro fuel hb hf
  cases xs with
  | nil =>
    simp only [rlpNodesList] at hf
    obtain ⟨f, rfl⟩ : ∃ f, fuel = f + 1 := ⟨fuel - 1, by omega⟩
    rw [rlpEncodeList_nil]
    simp [rlpDecodeItems]
  | cons x xs =>
    simp only [rlpNodesList] at hf
    obtain ⟨f, rfl⟩ : ∃ f, fuel = f + 1 := ⟨fuel - 1, by omega⟩
    obtain ⟨hbx, hbxs⟩ := rlpBoundedList_cons x xs hb
    have hnx : 1 ≤ rlpNodes x := by
      cases x <;> simp [rlpNodes]
    rw [rlpEncodeList_cons]
    cases henc : rlpEncode x with
    | nil => exact absurd henc (rlpEncode_ne_nil x)
    | cons b tl =>
      have hone : rlpDecodeOne f (rlpEncode x ++ rlpEncodeList xs) = some (x, rlpEncodeList xs) :=
        rlpDecodeOne_encode x (rlpEncodeList xs) f hbx (by omega)
      rw [henc] at hone
      simp only [List.cons_append]
      simp only [rlpDecodeItems]
      rw [List.cons_append] at hone
      rw [hone]
      simp [rlpDecodeItems_encode xs f hbxs (by omega)]
end

theorem rlpDecodeOne_encode_self (x : RItem) (hb : rlpBounded x = true) :
    rlpDecodeOne (3 * (rlpEncode x).length + 3) (rlpEncode x) = some (x, []) := by
  have h := rlpDecodeOne_encode x [] (3 * (rlpEncode x).length + 3) hb
    (by have := rlpNodes_le x; omega)
  rw [List.append_nil] at h
  exact h

theorem rlpEncode_list_head (xs : RList) (hd : Nat) (tl : List Nat)
    (h : rlpEncode (.list xs) = hd :: tl) : 192 ≤ hd := by
  rw [rlpEncode_list_def] at h
  unfold encLen at h
  split at h
  · simp only [List.cons_append, List.nil_append] at h
    injection h with h1 h2
    omega
  · simp only [List.cons_append] at h
    injection h with h1 h2
    omega

/-! ## Helper lemmas: the serialized unsigned transaction parses back to itself -/

theorem parseAuthList_authListRList (l : List AuthTuple) :
    parseAuthList (authListRList l) = some l := by
  induction l with
  | nil => rfl
  | cons a rest ih =>
    simp [authListRList, authTupleRItem, parseAuthList, ih]

theorem parseUnsigned_serializeUnsigned (u : UnsignedEthTx) (hb : unsignedTxBounded u = true) :
    parseUnsigned (serializeUnsigned u) = some u := by
  cases u with
  | legacy l =>
    have hb' : rlpBounded (legacyUnsignedRItem l) = true := hb
    show parseUnsigned (rlpEncode (legacyUnsignedRItem l)) = some (.legacy l)
    cases henc : rlpEncode (legacyUnsignedRItem l) with
    | nil => exact absurd henc (rlpEncode_ne_nil _)
    | cons hd tl =>
      have hd192 : 192 ≤ hd := rlpEncode_list_head _ hd tl henc
      have hdec := rlpDecodeOne_encode_self (legacyUnsignedRItem l) hb'
      rw [henc] at hdec
      simp only [parseUnsigned]
      rw [if_neg (by omega), if_neg (by omega), if_pos hd192, hdec]
      simp [legacyUnsignedRItem, parseLegacyItems]
  | feeMarket t =>
    have hb' : rlpBounded (feeMarketUnsignedRItem t) = true := hb
    show parseUnsigned (2 :: rlpEncode (feeMarketUnsignedRItem t)) = some (.feeMarket t)
    have hdec := rlpDecodeOne_encode_self (feeMarketUnsignedRItem t) hb'
    simp only [parseUnsigned]
    rw [if_pos trivial, hdec]
    simp [feeMarketUnsignedRItem, dynamicFieldsRList, parseDynamicItems]
  | delegated t auths =>
    have hb' : rlpBounded (delegatedUnsignedRItem t auths) = true := hb
    show parseUnsigned (4 :: rlpEncode (delegatedUnsignedRItem t auths)) = some (.delegated t auths)
    have hdec := rlpDecodeOne_encode_self (delegatedUnsignedRItem t auths) hb'
    simp only [parseUnsigned]
    rw [if_pos trivial, hdec]
    simp [delegatedUnsignedRItem, dynamicFieldsRList, parseDelegatedItems,
      parseAuthList_authListRList]

theorem encLen_lt256 (offset len : Nat) (hoff : offset ≤ 192) (hlen : len < 2 ^ 64) :
    (encLen offset len).all (fun b => b < 256) = true := by
  unfold encLen
  split
  · rename_i hle
    simp only [List.all_cons, List.all_nil, Bool.and_true, Bool.and_eq_true,
      decide_eq_true_eq]
    omega
  · rename_i hgt
    have hll : (natToBytesBE len).length ≤ 8 :=
      natToBytesBE_length_le _ 8 (by norm_num at hlen ⊢; omega)
    simp only [List.all_cons, Bool.and_eq_true, decide_eq_true_eq]
    exact ⟨by omega, natToBytesBE_lt256 len⟩

mutual
theorem rlpEncode_lt256 (x : RItem) (hb : rlpBounded x = true) (hlt : rlpLT256 x = true) :
    (rlpEncode x).all (fun b => b < 256) = true := by
  cases x with
  | bytes bs =>
    have hlen := rlpBounded_bytes bs hb
    have hbs : bs.all (fun b => b < 256) = true := hlt
    by_cases h1 : bs.length = 1
    · obtain ⟨b, rfl⟩ : ∃ b, bs = [b] := by
        cases bs with
        | nil => simp at h1
        | cons b t =>
          cases t with
          | nil => exact ⟨b, rfl⟩
          | cons c t2 => simp at h1
      have hblt : b < 256 := by simpa using hbs
      rw [rlpEncode_bytes_single]
      split
      · simpa using hblt
      · simp only [List.all_cons, List.all_nil, Bool.and_true, Bool.and_eq_true,
          decide_eq_true_eq]
        omega
    · rw [rlpEncode_bytes_general bs h1]
      rw [List.all_append]
      rw [encLen_lt256 128 bs.length (by omega) hlen, hbs]
      rfl
  | list xs =>
    obtain ⟨hlen, hbl⟩ := rlpBounded_list xs hb
    have hxs : rlpLT256List xs = true := hlt
    rw [rlpEncode_list_def, List.all_append]
    rw [encLen_lt256 192 (rlpEncodeList xs).length (by omega) hlen,
      rlpEncodeList_lt256 xs hbl hxs]
    rfl
theorem rlpEncodeList_lt256 (xs : RList) (hb : rlpBoundedList xs = true)
    (hlt : rlpLT256List xs = true) :
    (rlpEncodeList xs).all (fun b => b < 256) = true := by
  cases xs with
  | nil => rfl
  | cons x xs =>
    obtain ⟨hbx, hbxs⟩ := rlpBoundedList_cons x xs hb
    have hx : rlpLT256 x = true ∧ rlpLT256List xs = true := by
      simpa [rlpLT256List] using hlt
    rw [rlpEncodeList_cons, List.all_append]
    rw [rlpEncode_lt256 x hbx hx.1, rlpEncodeList_lt256 xs hbxs hx.2]
    rfl
end

theorem serializeUnsigned_lt256 (u : UnsignedEthTx) (hb : unsignedTxBounded u = true)
    (hlt : unsignedTxLT256 u = true) :
    (serializeUnsigned u).all (fun b => b < 256) = true := by
  cases u with
  | legacy l => exact rlpEncode_lt256 _ hb hlt
  | feeMarket t =>
    show ((2 :: rlpEncode (feeMarketUnsignedRItem t)).all fun b => decide (b < 256)) = true
    simp only [List.all_cons, Bool.and_eq_true, decide_eq_true_eq]
    exact ⟨by omega, rlpEncode_lt256 _ hb hlt⟩
  | delegated t auths =>
    show ((4 :: rlpEncode (delegatedUnsignedRItem t auths)).all fun b => decide (b < 256)) = true
    simp only [List.all_cons, Bool.and_eq_true, decide_eq_true_eq]
    exact ⟨by omega, rlpEncode_lt256 _ hb hlt⟩

/-! ## Claim theorems -/

theorem hexStrVal_toRpcHex_prefixed (l : List Char) :
    hexStrVal (toRpcHex (String.mk ('0' :: 'x' :: l))) = hexStrVal (String.mk ('0' :: 'x' :: l)) := by
  rw [hexStrVal_toRpcHex_body, hexStrVal_two_prefix]

/-- C1: for every `signAuthorizationListItem` call with a valid 32-byte private key and
parameters `{chainId, nonce, address}`, the signed message hash is the keccak256 of the
one-byte domain tag `0x05` followed by the RLP encoding of the three-element list
`[chainId, address, nonce]`, where the chainId and nonce byte strings are stripped of
leading zero bytes but the address bytes are used exactly as decoded; the hash depends
only on those three fields and the key — never on the enclosing transaction — and the
`r`/`s` of the returned item are the signature of exactly that hash. -/
theorem claim_C1_auth_signing_hash (S : Secp) (p : SignAuthParams) (pk ns : String)
    (key cbRaw nbRaw ab : List Nat)
    (hpk : p.privateKey = some pk) (hpk0 : pk ≠ "")
    (hkey : fromHex pk = Except.ok key) (hlen : key.length = 32)
    (hc : hexToBytes p.data.chainId = Except.ok cbRaw)
    (hns : p.data.nonce = some ns)
    (hn : hexToBytes ns = Except.ok nbRaw)
    (ha : hexToBytes p.data.address = Except.ok ab) :
    authMsgToSign S p = Except.ok (S.keccak256 (5 :: rlpEncode (.list (.cons
        (.bytes (unpadBytes cbRaw)) (.cons (.bytes ab)
        (.cons (.bytes (unpadBytes nbRaw)) .nil)))))) ∧
    (∀ q : SignAuthParams, q.privateKey = p.privateKey → q.data.chainId = p.data.chainId →
      q.data.nonce = p.data.nonce → q.data.address = p.data.address →
      authMsgToSign S q = authMsgToSign S p) ∧
    (signAuthorizationListItem S p).map (fun a => (a.r, a.s)) = Except.ok
      (toHexPrefixed (unpadBuffer (S.ecdsaSign (S.keccak256 (5 :: rlpEncode (.list (.cons
          (.bytes (unpadBytes cbRaw)) (.cons (.bytes ab)
          (.cons (.bytes (unpadBytes nbRaw)) .nil)))))) key).r),
       toHexPrefixed (unpadBuffer (S.ecdsaSign (S.keccak256 (5 :: rlpEncode (.list (.cons
          (.bytes (unpadBytes cbRaw)) (.cons (.bytes ab)
          (.cons (.bytes (unpadBytes nbRaw)) .nil)))))) key).s)) := by
  have hprep : signAuthPrep p = Except.ok ⟨key, unpadBytes cbRaw, ab, unpadBytes nbRaw⟩ := by
    unfold signAuthPrep
    rw [hpk]
    simp only [hpk0, if_false, hkey, hlen, if_pos, hc, hns, hn, ha]
    rfl
  refine ⟨?_, ?_, ?_⟩
  · simp [authMsgToSign, hprep, authMsgPayload, Except.map]
  · intro q hq1 hq2 hq3 hq4
    unfold authMsgToSign
    rw [show signAuthPrep q = signAuthPrep p from by
      unfold signAuthPrep; rw [hq1, hq2, hq3, hq4]]
  · simp [signAuthorizationListItem, hprep, authMsgPayload, Except.map]

/-- Witness for C1 at a concrete backend, key and parameters (address `0x0005` keeps its
leading zero byte, chainId `0x01` and nonce `0x00` are stripped). -/
theorem claim_C1_auth_signing_hash_witness :
    fromHex "0x1111111111111111111111111111111111111111111111111111111111111111" =
      Except.ok (List.replicate 32 17) ∧
    authMsgToSign trivSecp
      ⟨some "0x1111111111111111111111111111111111111111111111111111111111111111",
       ⟨"0x01", some "0x00", "0x0005", []⟩⟩ =
      Except.ok (trivSecp.keccak256 (5 :: rlpEncode (.list (.cons
        (.bytes (unpadBytes [1])) (.cons (.bytes [0, 5])
        (.cons (.bytes (unpadBytes [0])) .nil)))))) :=
  ⟨rfl, (claim_C1_auth_signing_hash trivSecp
      ⟨some "0x1111111111111111111111111111111111111111111111111111111111111111",
       ⟨"0x01", some "0x00", "0x0005", []⟩⟩
      "0x1111111111111111111111111111111111111111111111111111111111111111" "0x00"
      (List.replicate 32 17) [1] [0] [0, 5]
      rfl (by decide) rfl rfl rfl rfl rfl rfl).1⟩

/-- C9: for every successful `signAuthorizationListItem` call, the returned `yParity`
field is the string `0x` (empty hex body) when the recovery parity is 0 and `0x1` when
it is 1 — parity 0 is never rendered as `0x0` by this operation itself, only by the
separate RPC transformation (`toRpcAuth` turns `0x` into `0x0`). -/
theorem claim_C9_yparity_rendering (S : Secp) (p : SignAuthParams) (a : AuthPrep)
    (auth : AuthorizationListItem)
    (hprep : signAuthPrep p = Except.ok a)
    (hok : signAuthorizationListItem S p = Except.ok auth) :
    auth.yParity ≠ "0x0" ∧
    ((S.ecdsaSign (S.keccak256 (authMsgPayload a.chainIdBytes a.addressBytes a.nonceBytes)) a.key).v - 27 = 0 →
      auth.yParity = "0x" ∧ (toRpcAuth auth).yParity = "0x0") ∧
    ((S.ecdsaSign (S.keccak256 (authMsgPayload a.chainIdBytes a.addressBytes a.nonceBytes)) a.key).v - 27 ≠ 0 →
      auth.yParity = "0x1") := by
  unfold signAuthorizationListItem at hok
  rw [hprep] at hok
  simp only [Except.ok.injEq] at hok
  subst hok
  dsimp only [toRpcAuth]
  by_cases hv : (S.ecdsaSign (S.keccak256 (authMsgPayload a.chainIdBytes a.addressBytes a.nonceBytes)) a.key).v - 27 = 0
  · rw [if_pos hv]
    exact ⟨by decide, fun _ => ⟨rfl, by decide⟩, fun h => absurd hv h⟩
  · rw [if_neg hv]
    exact ⟨by decide, fun h => absurd h hv, fun _ => rfl⟩

/-- Witness for C9 at the trivial backend (whose signature has `v = 27`, parity 0). -/
theorem claim_C9_yparity_rendering_witness :
    (trivSecp.ecdsaSign (trivSecp.keccak256 (authMsgPayload [1] [0, 5] [])) (List.replicate 32 17)).v - 27 = 0 ∧
    (AuthorizationListItem.mk (bytesToHex [1]) "0x0005" (bytesToHex [])
        "0x" (toHexPrefixed (unpadBuffer (List.replicate 32 1)))
        (toHexPrefixed (unpadBuffer (List.replicate 32 2)))).yParity ≠ "0x0" := by
  have h := claim_C9_yparity_rendering trivSecp
    ⟨some "0x1111111111111111111111111111111111111111111111111111111111111111",
     ⟨"0x01", some "0x00", "0x0005", []⟩⟩
    ⟨List.replicate 32 17, [1], [0, 5], []⟩
    (AuthorizationListItem.mk (bytesToHex [1]) "0x0005" (bytesToHex [])
      "0x" (toHexPrefixed (unpadBuffer (List.replicate 32 1)))
      (toHexPrefixed (unpadBuffer (List.replicate 32 2))))
    rfl rfl
  exact ⟨by decide, h.1⟩

/-- C7: for every authorization item produced by `signAuthorizationListItem`, the
JSON-RPC transformation (`signAuthorizationListItemForRPC`, i.e. `toRpcAuth`: stripping
leading zero nibbles from the `chainId`, `nonce`, `yParity`, `r` and `s` hex fields, with
`0x` mapped to `0x0`) leaves the decoded value of every field unchanged — formalized as
the big-endian integer each hex field denotes — and leaves the `address` text untouched;
only the textual hex representation differs. -/
theorem claim_C7_rpc_value_preserving (S : Secp) (p : SignAuthParams)
    (auth : AuthorizationListItem)
    (hok : signAuthorizationListItem S p = Except.ok auth) :
    signAuthorizationListItemForRPC S p = Except.ok (toRpcAuth auth) ∧
    (toRpcAuth auth).address = auth.address ∧
    hexStrVal (toRpcAuth auth).chainId = hexStrVal auth.chainId ∧
    hexStrVal (toRpcAuth auth).nonce = hexStrVal auth.nonce ∧
    hexStrVal (toRpcAuth auth).yParity = hexStrVal auth.yParity ∧
    hexStrVal (toRpcAuth auth).r = hexStrVal auth.r ∧
    hexStrVal (toRpcAuth auth).s = hexStrVal auth.s := by
  refine ⟨by simp [signAuthorizationListItemForRPC, hok, Except.map], rfl, ?_⟩
  unfold signAuthorizationListItem at hok
  cases hprep : signAuthPrep p with
  | error e => rw [hprep] at hok; cases hok
  | ok a =>
    rw [hprep] at hok
    simp only [Except.ok.injEq] at hok
    subst hok
    dsimp only [toRpcAuth]
    refine ⟨?_, ?_, ?_, ?_, ?_⟩
    · exact hexStrVal_toRpcHex_prefixed (bytesToHexBody a.chainIdBytes)
    · exact hexStrVal_toRpcHex_prefixed (bytesToHexBody a.nonceBytes)
    · by_cases hv : (S.ecdsaSign (S.keccak256 (authMsgPayload a.chainIdBytes a.addressBytes a.nonceBytes)) a.key).v - 27 = 0
      · rw [if_pos hv]; decide
      · rw [if_neg hv]; decide
    · exact hexStrVal_toRpcHex_prefixed
        (bytesToHexBody (unpadBuffer (S.ecdsaSign (S.keccak256 (authMsgPayload a.chainIdBytes a.addressBytes a.nonceBytes)) a.key).r))
    · exact hexStrVal_toRpcHex_prefixed
        (bytesToHexBody (unpadBuffer (S.ecdsaSign (S.keccak256 (authMsgPayload a.chainIdBytes a.addressBytes a.nonceBytes)) a.key).s))

/-- Witness for C7 at the trivial backend and concrete parameters. -/
theorem claim_C7_rpc_value_preserving_witness :
    signAuthorizationListItem trivSecp
      ⟨some "0x1111111111111111111111111111111111111111111111111111111111111111",
       ⟨"0x01", some "0x00", "0x0005", []⟩⟩ =
      Except.ok (AuthorizationListItem.mk (bytesToHex [1]) "0x0005" (bytesToHex [])
        "0x" (toHexPrefixed (unpadBuffer (List.replicate 32 1)))
        (toHexPrefixed (unpadBuffer (List.replicate 32 2)))) ∧
    hexStrVal (toRpcAuth (AuthorizationListItem.mk (bytesToHex [1]) "0x0005" (bytesToHex [])
        "0x" (toHexPrefixed (unpadBuffer (List.replicate 32 1)))
        (toHexPrefixed (unpadBuffer (List.replicate 32 2))))).chainId =
      hexStrVal (AuthorizationListItem.mk (bytesToHex [1]) "0x0005" (bytesToHex [])
        "0x" (toHexPrefixed (unpadBuffer (List.replicate 32 1)))
        (toHexPrefixed (unpadBuffer (List.replicate 32 2)))).chainId :=
  ⟨rfl, (claim_C7_rpc_value_preserving trivSecp
      ⟨some "0x1111111111111111111111111111111111111111111111111111111111111111",
       ⟨"0x01", some "0x00", "0x0005", []⟩⟩
      (AuthorizationListItem.mk (bytesToHex [1]) "0x0005" (bytesToHex [])
        "0x" (toHexPrefixed (unpadBuffer (List.replicate 32 1)))
        (toHexPrefixed (unpadBuffer (List.replicate 32 2)))) rfl).2.2.1⟩

/-- C2: for every `signTransaction` call whose parameters include a (non-empty)
`contractAddress` and a supported type, the txData handed to the signing layer carries
`data` equal to the fixed selector `0xa9059cbb` followed by the hex of
`abi.RawEncode([address, uint256], [recipient, amount])`, its `to` field redirected to
the contract address, and its native `value` forced to `0x0` unconditionally for types 2
and 4, and for types 0/1 forced to `0x0` exactly when the `useValue` flag is false (the
caller value is kept when `useValue` is true). -/
theorem claim_C2_token_transfer_synthesis (d : EthTxDataIn) (ca : String) (t : Nat)
    (enc : List Nat)
    (hca : d.contractAddress = some ca) (hca0 : ca ≠ "")
    (ht : t = jsOrNat d.type 0)
    (htype : t = 0 ∨ t = 1 ∨ t = 2 ∨ t = 4)
    (henc : abiRawEncodeTransfer d.toAddr (convert2HexString (jsOrNat d.value 0)) =
      Except.ok enc) :
    (signTransactionTxData d).map txDataTo = Except.ok ca ∧
    (signTransactionTxData d).map txDataData = Except.ok (some
      (TOKEN_TRANSFER_FUNCTION_SIGNATURE ++ String.mk (bytesToHexBody enc))) ∧
    (signTransactionTxData d).map txDataValue = Except.ok
      (if t = 2 ∨ t = 4 then "0x0"
       else if d.useValue.getD false then convert2HexString (jsOrNat d.value 0)
       else "0x0") := by
  have htok : tokenTransferData d.toAddr (convert2HexString (jsOrNat d.value 0)) =
      Except.ok (TOKEN_TRANSFER_FUNCTION_SIGNATURE ++ String.mk (bytesToHexBody enc)) := by
    simp [tokenTransferData, henc, Bind.bind, Except.bind]
  have htruthy : isTruthyStr (some ca) = true := by
    simp [isTruthyStr, hca0]
  rcases htype with h | h | h | h <;> subst h <;>
    simp [signTransactionTxData, convert2TxParam, ← ht, hca, htruthy, htok, Bind.bind,
      Except.bind, Except.map, txDataTo, txDataData, txDataValue]

/-- Witness for C2: a type-0 transfer through a contract at a concrete input. -/
theorem claim_C2_token_transfer_synthesis_witness :
    abiRawEncodeTransfer "0x0000000000000000000000000000000000000001" (convert2HexString 5) =
      Except.ok (setLengthLeft32 (List.replicate 19 0 ++ [1]) ++ setLengthLeft32 (natToBytesBE 5)) ∧
    (signTransactionTxData ⟨"0x0000000000000000000000000000000000000001", some 5, none, 1,
        some "0xaa", some 1, some 1, none, some 1, none, none, none, none⟩).map txDataTo =
      Except.ok "0xaa" :=
  ⟨rfl, (claim_C2_token_transfer_synthesis
    ⟨"0x0000000000000000000000000000000000000001", some 5, none, 1, some "0xaa", some 1,
      some 1, none, some 1, none, none, none, none⟩ "0xaa" 0
    (setLengthLeft32 (List.replicate 19 0 ++ [1]) ++ setLengthLeft32 (natToBytesBE 5))
    (by rfl) (by decide) (by rfl) (Or.inl rfl) (by rfl)).1⟩

theorem signTransactionTxData_shape (d : EthTxDataIn) (td : TxData)
    (h : signTransactionTxData d = Except.ok td) :
    ((jsOrNat d.type 0 = 0 ∨ jsOrNat d.type 0 = 1) → isLegacyTxData td = true) ∧
    (jsOrNat d.type 0 = 2 → isFeeMarketTxData td = true) ∧
    (jsOrNat d.type 0 = 4 → isDelegatedTxData td = true) := by
  have hty : (convert2TxParam d).type = jsOrNat d.type 0 := rfl
  simp only [signTransactionTxData, hty] at h
  split at h
  · rename_i hcond
    split at h
    · split at h
      · rename_i ca
        cases htd : tokenTransferData (convert2TxParam d).toAddr (convert2TxParam d).value with
        | error e => rw [htd] at h; cases h
        | ok s =>
          rw [htd] at h
          simp only [Bind.bind, Except.bind, Except.ok.injEq] at h
          subst h
          exact ⟨fun _ => rfl, fun h2 => by omega, fun h4 => by omega⟩
      · cases h
    · simp only [Except.ok.injEq] at h
      subst h
      exact ⟨fun _ => rfl, fun h2 => by omega, fun h4 => by omega⟩
  · rename_i hncond
    split at h
    · rename_i hcond
      split at h
      · split at h
        · rename_i ca
          cases htd : tokenTransferData (convert2TxParam d).toAddr (convert2TxParam d).value with
          | error e => rw [htd] at h; cases h
          | ok s =>
            rw [htd] at h
            simp only [Bind.bind, Except.bind, Except.ok.injEq] at h
            subst h
            exact ⟨fun h01 => by omega, fun _ => rfl, fun h4 => by omega⟩
        · cases h
      · simp only [Except.ok.injEq] at h
        subst h
        exact ⟨fun h01 => by omega, fun _ => rfl, fun h4 => by omega⟩
    · rename_i hn2
      split at h
      · rename_i hcond
        split at h
        · split at h
          · rename_i ca
            cases htd : tokenTransferData (convert2TxParam d).toAddr (convert2TxParam d).value with
            | error e => rw [htd] at h; cases h
            | ok s =>
              rw [htd] at h
              simp only [Bind.bind, Except.bind, Except.ok.injEq] at h
              subst h
              exact ⟨fun h01 => by omega, fun h2 => by omega, fun _ => rfl⟩
          · cases h
        · simp only [Except.ok.injEq] at h
          subst h
          exact ⟨fun h01 => by omega, fun h2 => by omega, fun _ => rfl⟩
      · cases h

/-- C3 counterexample: a `signTransaction` call with type 3 rejects with the same
`SignTxError` constant that every other signing failure uses — there is no distinct
`UnsupportedTransactionType` error value in the code. -/
theorem claim_C3_counterexample :
    ethSignTransaction trivSecp ⟨none, ⟨"0x01", none, none, 0, none, none, none, none,
        none, some 3, none, none, none⟩⟩ = Except.error WalletError.SignTxError ∧
    ethSignTransaction trivSecp ⟨none, ⟨"0x01", none, none, 0, none, none, none, none,
        none, some 3, none, none, none⟩⟩ ≠ Except.error WalletError.UnsupportedTransactionType := by
  refine ⟨rfl, ?_⟩
  intro h
  rw [show ethSignTransaction trivSecp ⟨none, ⟨"0x01", none, none, 0, none, none, none,
    none, none, some 3, none, none, none⟩⟩ = Except.error WalletError.SignTxError from rfl] at h
  injection h with h2
  cases h2

/-- C3 (amended): for every `signTransaction` call whose normalized type discriminant is
not 0, 1, 2 or 4, the operation fails with the typed `SignTxError` — the single typed
error shared by all signing failures; there is no distinct `UnsupportedTransactionType`
value — and types 0/1 select the Legacy txData shape, 2 the FeeMarket shape, 4 the
DelegatedAuth shape. -/
theorem claim_C3_type_dispatch (S : Secp) (pk : Option String) (d : EthTxDataIn) (t : Nat)
    (ht : t = jsOrNat d.type 0) :
    (t ≠ 0 → t ≠ 1 → t ≠ 2 → t ≠ 4 →
      ethSignTransaction S ⟨pk, d⟩ = Except.error WalletError.SignTxError) ∧
    (∀ td, signTransactionTxData d = Except.ok td →
      ((t = 0 ∨ t = 1) → isLegacyTxData td = true) ∧
      (t = 2 → isFeeMarketTxData td = true) ∧
      (t = 4 → isDelegatedTxData td = true)) := by
  constructor
  · intro h0 h1 h2 h4
    have htx : signTransactionTxData d = Except.error "unsupported transaction type" := by
      have hty : (convert2TxParam d).type = jsOrNat d.type 0 := rfl
      simp only [signTransactionTxData, hty, ← ht]
      rw [if_neg (by omega), if_neg h2, if_neg h4]
    unfold ethSignTransaction ethSignTransactionTry
    cases hc : checkPrivateKey pk with
    | error e => simp [hc, Bind.bind, Except.bind]
    | ok u => simp [hc, htx, Bind.bind, Except.bind]
  · intro td htd
    have := signTransactionTxData_shape d td htd
    rw [← ht] at this
    exact this

/-- Witness for C3 at a concrete unsupported type (3) and a concrete supported type. -/
theorem claim_C3_type_dispatch_witness :
    (3 : Nat) = jsOrNat (some 3) 0 ∧
    ethSignTransaction trivSecp ⟨none, ⟨"0x01", none, none, 0, none, none, none, none,
        none, some 3, none, none, none⟩⟩ = Except.error WalletError.SignTxError :=
  ⟨rfl, (claim_C3_type_dispatch trivSecp none ⟨"0x01", none, none, 0, none, none, none,
      none, none, some 3, none, none, none⟩ 3 rfl).1
    (by decide) (by decide) (by decide) (by decide)⟩

/-- C8 counterexample: a paySUI call with an empty input-coin set rejects with the same
`SignTxError` constant used for every other signing failure — there is no distinct
`MissingRequiredField` error value in the code. -/
theorem claim_C8_counterexample :
    suiSignTransaction trivSui ⟨"key", .paySUI ⟨some [], "0xabc", "1", "1", "1", none⟩⟩ =
      Except.error WalletError.SignTxError ∧
    suiSignTransaction trivSui ⟨"key", .paySUI ⟨some [], "0xabc", "1", "1", "1", none⟩⟩ ≠
      Except.error WalletError.MissingRequiredField := by
  refine ⟨rfl, ?_⟩
  intro h
  rw [show suiSignTransaction trivSui ⟨"key", .paySUI ⟨some [], "0xabc", "1", "1", "1", none⟩⟩ =
    Except.error WalletError.SignTxError from rfl] at h
  injection h with h2
  cases h2

/-- C8 (amended): for every paySUI `signTransaction` call on the Sui wallet whose
`inputCoins` set is missing or empty, the operation fails with the typed `SignTxError` —
the shared typed signing error; there is no distinct `MissingRequiredField` value — and
it does so before any transaction block is built or signed: the result is this error for
every backend, whatever its build and sign functions would return. -/
theorem claim_C8_empty_coins (B : SuiBackend) (p : SuiSignTxParams) (tx : PaySuiTransaction)
    (hdata : p.data = .paySUI tx)
    (hcoins : tx.inputCoins = none ∨ tx.inputCoins = some []) :
    suiSignTransaction B p = Except.error WalletError.SignTxError := by
  unfold suiSignTransaction
  cases hk : B.keyFromString p.privateKey with
  | error e => rfl
  | ok key =>
    rw [hdata]
    rcases hcoins with h | h <;> simp [h]

/-- Witness for C8 at the trivial backend with a missing coin set. -/
theorem claim_C8_empty_coins_witness :
    (SuiSignTxParams.mk "key" (.paySUI ⟨none, "0xabc", "1", "1", "1", none⟩)).data =
      .paySUI ⟨none, "0xabc", "1", "1", "1", none⟩ ∧
    suiSignTransaction trivSui ⟨"key", .paySUI ⟨none, "0xabc", "1", "1", "1", none⟩⟩ =
      Except.error WalletError.SignTxError :=
  ⟨rfl, claim_C8_empty_coins trivSui ⟨"key", .paySUI ⟨none, "0xabc", "1", "1", "1", none⟩⟩
    ⟨none, "0xabc", "1", "1", "1", none⟩ rfl (Or.inl rfl)⟩

/-- C10: for every input string, the Sui wallet's `validAddress` never rejects: it
resolves with the input address echoed unchanged, and `isValid` is true exactly when the
string hex-decodes (`base.fromHex`) without error to exactly 32 bytes (false otherwise,
including when decoding throws). -/
theorem claim_C10_valid_address (addr : String) :
    (suiValidAddress addr).isOk = true ∧
    (suiValidAddress addr).map (fun r => r.address) = Except.ok addr ∧
    ((suiValidAddress addr).map (fun r => r.isValid) = Except.ok true ↔
      ∃ bs, fromHex addr = Except.ok bs ∧ bs.length = 32) := by
  refine ⟨rfl, rfl, ?_⟩
  unfold suiValidAddress
  cases hf : fromHex addr with
  | error e =>
    dsimp only [Except.map]
    constructor
    · intro h
      simp only [Except.ok.injEq] at h
      cases h
    · rintro ⟨bs, hbs, _⟩
      cases hbs
  | ok bs =>
    dsimp only [Except.map]
    constructor
    · intro h
      simp only [Except.ok.injEq] at h
      exact ⟨bs, rfl, by simpa using h⟩
    · rintro ⟨bs2, hbs2, hlen⟩
      injection hbs2 with hbs2
      subst hbs2
      simp [hlen]

/-- C4 counterexample: `EthWallet.calcTxHash` on a malformed serialized input rejects
with the raw lower-level exception, not with the typed `CalcTxHashError`. -/
theorem claim_C4_counterexample :
    ethCalcTxHash trivSecp "zz" = Except.error (WalletError.rawException "invalid hex string") ∧
    ethCalcTxHash trivSecp "zz" ≠ Except.error WalletError.CalcTxHashError := by
  refine ⟨rfl, ?_⟩
  intro h
  rw [show ethCalcTxHash trivSecp "zz" =
    Except.error (WalletError.rawException "invalid hex string") from rfl] at h
  injection h with h2
  cases h2

/-- C4 (amended): the error-propagation policy is not uniform across the public surface.
`EthWallet.signTransaction` does map every internal failure onto exactly one typed error
(`SignTxError`), and `SuiWallet.calcTxHash` maps a malformed serialized input onto the
typed `CalcTxHashError`; but `EthWallet.calcTxHash` has no try/catch and propagates the
raw lower-level exception, and `signAuthorizationListItem` throws a raw `Error` for a
missing private key — raw exceptions do cross those two public operation boundaries. -/
theorem claim_C4_error_boundaries (S : Secp) (B : SuiBackend) :
    (∀ p : EthSignTxParams, (∃ r, ethSignTransaction S p = Except.ok r) ∨
      ethSignTransaction S p = Except.error WalletError.SignTxError) ∧
    (∀ s e, fromBase64 s = Except.error e →
      suiCalcTxHash B s = Except.error WalletError.CalcTxHashError) ∧
    (∀ s e, fromHex s = Except.error e →
      ethCalcTxHash S s = Except.error (WalletError.rawException e)) ∧
    (∀ p : SignAuthParams, p.privateKey = none →
      signAuthorizationListItem S p =
        Except.error (WalletError.rawException "privateKey is invalid")) := by
  refine ⟨?_, ?_, ?_, ?_⟩
  · intro p
    unfold ethSignTransaction
    cases h : ethSignTransactionTry S p with
    | ok r => exact Or.inl ⟨r, rfl⟩
    | error e => exact Or.inr rfl
  · intro s e h
    unfold suiCalcTxHash
    rw [h]
  · intro s e h
    unfold ethCalcTxHash
    rw [h]
  · intro p h
    unfold signAuthorizationListItem signAuthPrep
    rw [h]

/-- Witness for C4 at concrete malformed inputs. -/
theorem claim_C4_error_boundaries_witness :
    fromBase64 "!" = Except.error "invalid base64" ∧
    suiCalcTxHash trivSui "!" = Except.error WalletError.CalcTxHashError ∧
    fromHex "zz" = Except.error "invalid hex string" ∧
    ethCalcTxHash trivSecp "zz" = Except.error (WalletError.rawException "invalid hex string") :=
  ⟨rfl, (claim_C4_error_boundaries trivSecp trivSui).2.1 "!" "invalid base64" rfl,
   rfl, (claim_C4_error_boundaries trivSecp trivSui).2.2.1 "zz" "invalid hex string" rfl⟩

/-- C6: signing is a deterministic function of its inputs: two `signTransaction` calls
with the same key and the same transaction parameters return the same result — the same
serialized byte buffer (`raw`) and the same hash. In the embedding the deterministic
ECDSA nonce of the spec is reflected by `Secp.ecdsaSign` being a pure function of the
hash and the key. -/
theorem claim_C6_determinism (S : Secp) (p1 p2 : EthSignTxParams) (h : p1 = p2) :
    ethSignTransaction S p1 = ethSignTransaction S p2 ∧
    (ethSignTransaction S p1).map (fun r => r.raw) =
      (ethSignTransaction S p2).map (fun r => r.raw) ∧
    (ethSignTransaction S p1).map (fun r => r.hash) =
      (ethSignTransaction S p2).map (fun r => r.hash) := by
  subst h
  exact ⟨rfl, rfl, rfl⟩

/-- Witness for C6 at a concrete call. -/
theorem claim_C6_determinism_witness :
    (EthSignTxParams.mk none ⟨"0x01", none, none, 0, none, none, none, none, none,
      none, none, none, none⟩) = (EthSignTxParams.mk none ⟨"0x01", none, none, 0, none,
      none, none, none, none, none, none, none, none⟩) ∧
    ethSignTransaction trivSecp ⟨none, ⟨"0x01", none, none, 0, none, none, none, none,
        none, none, none, none, none⟩⟩ =
      ethSignTransaction trivSecp ⟨none, ⟨"0x01", none, none, 0, none, none, none, none,
        none, none, none, none, none⟩⟩ :=
  ⟨rfl, (claim_C6_determinism trivSecp
    ⟨none, ⟨"0x01", none, none, 0, none, none, none, none, none, none, none, none, none⟩⟩
    ⟨none, ⟨"0x01", none, none, 0, none, none, none, none, none, none, none, none, none⟩⟩
    rfl).1⟩

/-- C5: two-phase equivalence. For every transaction parameter object and valid 32-byte
key, with the externally produced signature over the phase-1 hash (and a recovery backend
that identifies the signer's parity unambiguously), assembling the signed transaction
from the phase-1 raw context (`getMPCRawTransaction` then `getMPCTransaction`, or the
hardware analogue `getHardWareRawTransaction` then `getHardWareSignedTransaction`)
produces serialized bytes identical to those of `signTransaction` called directly with
the key: both equal `bytesToHex (serializeSigned u g)`. -/
theorem claim_C5_two_phase_equivalence (S : Secp) (d : EthTxDataIn) (td : TxData)
    (u : UnsignedEthTx) (keyHex : String) (keyBytes pubBytes : List Nat) (g : EcdsaSig)
    (htd : signTransactionTxData d = Except.ok td)
    (hu : toUnsignedEthTx td = Except.ok u)
    (hbounded : unsignedTxBounded u = true)
    (hlt : unsignedTxLT256 u = true)
    (hkeyHex0 : keyHex ≠ "")
    (hkey : fromHex keyHex = Except.ok keyBytes)
    (hklen : keyBytes.length = 32)
    (hg : g = S.ecdsaSign (S.keccak256 (serializeUnsigned u)) keyBytes)
    (hv : g.v = 27 ∨ g.v = 28)
    (hrlen : g.r.length = 32) (hslen : g.s.length = 32)
    (hr256 : g.r.all (fun b => b < 256) = true)
    (hs256 : g.s.all (fun b => b < 256) = true)
    (_hpub : S.pubFromKey keyBytes = pubBytes)
    (hpub256 : pubBytes.all (fun b => b < 256) = true)
    (hrec0 : S.ecdsaRecover (S.keccak256 (serializeUnsigned u)) g.r g.s (g.v - 27) = pubBytes)
    (hrec1 : S.ecdsaRecover (S.keccak256 (serializeUnsigned u)) g.r g.s (1 - (g.v - 27)) ≠ pubBytes) :
    ethSignTransaction S ⟨some keyHex, d⟩ = Except.ok
      ⟨bytesToHex (serializeSigned u g), bytesToHex (S.keccak256 (serializeSigned u g)),
       bytesToHex (serializeUnsigned u)⟩ ∧
    getMPCRawTransaction S ⟨none, d⟩ = Except.ok
      ⟨bytesToHex (serializeUnsigned u), bytesToHex (S.keccak256 (serializeUnsigned u))⟩ ∧
    getMPCTransaction S (bytesToHex (serializeUnsigned u)) (bytesToHex (g.r ++ g.s))
      (bytesToHex pubBytes) = Except.ok (bytesToHex (serializeSigned u g)) ∧
    getHardWareRawTransaction S ⟨none, d⟩ = Except.ok (bytesToHex (serializeUnsigned u)) ∧
    getHardWareSignedTransaction (bytesToHex (serializeUnsigned u)) (bytesToHex g.r)
      (bytesToHex g.s) g.v = Except.ok (bytesToHex (serializeSigned u g)) := by
  have hmsg256 : (serializeUnsigned u).all (fun b => b < 256) = true :=
    serializeUnsigned_lt256 u hbounded hlt
  have hraw : fromHex (bytesToHex (serializeUnsigned u)) = Except.ok (serializeUnsigned u) :=
    fromHex_bytesToHex _ hmsg256
  have hparse : parseUnsigned (serializeUnsigned u) = some u :=
    parseUnsigned_serializeUnsigned u hbounded
  have hsig256 : (g.r ++ g.s).all (fun b => b < 256) = true := by
    rw [List.all_append, hr256, hs256]
    rfl
  have hsigs : fromHex (bytesToHex (g.r ++ g.s)) = Except.ok (g.r ++ g.s) :=
    fromHex_bytesToHex _ hsig256
  have hpubhex : fromHex (bytesToHex pubBytes) = Except.ok pubBytes :=
    fromHex_bytesToHex _ hpub256
  have hsiglen : (g.r ++ g.s).length = 64 := by
    rw [List.length_append, hrlen, hslen]
  have htake : (g.r ++ g.s).take 32 = g.r := by
    rw [← hrlen]
    exact List.take_left _ _
  have hdrop : (g.r ++ g.s).drop 32 = g.s := by
    rw [← hrlen]
    exact List.drop_left _ _
  have hcheck : checkPrivateKey (some keyHex) = Except.ok () := by
    simp [checkPrivateKey, hkeyHex0, hkey, hklen]
  have hcore1 : ethSignTransactionCore S (some keyHex) td = Except.ok
      ⟨bytesToHex (serializeSigned u g), bytesToHex (S.keccak256 (serializeSigned u g)),
       bytesToHex (serializeUnsigned u)⟩ := by
    unfold ethSignTransactionCore
    simp [hu, Bind.bind, Except.bind, hkeyHex0, hkey, hklen, ← hg]
  have hcore0 : ethSignTransactionCore S none td = Except.ok
      ⟨bytesToHex (serializeUnsigned u), bytesToHex (S.keccak256 (serializeUnsigned u)),
       bytesToHex (serializeUnsigned u)⟩ := by
    unfold ethSignTransactionCore
    simp [hu, Bind.bind, Except.bind]
  have hsign1 : ethSignTransaction S ⟨some keyHex, d⟩ = Except.ok
      ⟨bytesToHex (serializeSigned u g), bytesToHex (S.keccak256 (serializeSigned u g)),
       bytesToHex (serializeUnsigned u)⟩ := by
    unfold ethSignTransaction ethSignTransactionTry
    simp [hcheck, htd, hcore1, Bind.bind, Except.bind]
  have hsign0 : ethSignTransaction S ⟨none, d⟩ = Except.ok
      ⟨bytesToHex (serializeUnsigned u), bytesToHex (S.keccak256 (serializeUnsigned u)),
       bytesToHex (serializeUnsigned u)⟩ := by
    unfold ethSignTransaction ethSignTransactionTry
    simp [checkPrivateKey, htd, hcore0, Bind.bind, Except.bind]
  have hcore3 : ethGetMPCTransactionCore S (bytesToHex (serializeUnsigned u))
      (bytesToHex (g.r ++ g.s)) (bytesToHex pubBytes) =
      Except.ok (bytesToHex (serializeSigned u g)) := by
    unfold ethGetMPCTransactionCore
    rcases hv with h27 | h28
    · have h0 : g.v - 27 = 0 := by omega
      rw [h0] at hrec0
      have hgeta : (EcdsaSig.mk 27 g.r g.s) = g := by
        obtain ⟨v, r, s⟩ := g
        simp only at h27
        rw [h27]
      simp [hraw, hparse, hsigs, hpubhex, hsiglen, htake, hdrop, Bind.bind, Except.bind,
        hrec0, hgeta]
    · have h0 : g.v - 27 = 1 := by omega
      have h1 : 1 - (g.v - 27) = 0 := by omega
      rw [h0] at hrec0
      rw [h1] at hrec1
      have hgeta : (EcdsaSig.mk 28 g.r g.s) = g := by
        obtain ⟨v, r, s⟩ := g
        simp only at h28
        rw [h28]
      have hbeq0 : (S.ecdsaRecover (S.keccak256 (serializeUnsigned u)) g.r g.s 0 ==
          pubBytes) = false := by
        simp [hrec1]
      simp [hraw, hparse, hsigs, hpubhex, hsiglen, htake, hdrop, Bind.bind, Except.bind,
        hrec0, hbeq0, hgeta]
  have hrhex : fromHex (bytesToHex g.r) = Except.ok g.r := fromHex_bytesToHex _ hr256
  have hshex : fromHex (bytesToHex g.s) = Except.ok g.s := fromHex_bytesToHex _ hs256
  have hcore5 : ethGetSignedTransactionCore (bytesToHex (serializeUnsigned u))
      (bytesToHex g.r) (bytesToHex g.s) g.v = Except.ok (bytesToHex (serializeSigned u g)) := by
    unfold ethGetSignedTransactionCore
    simp [hraw, hparse, hrhex, hshex, Bind.bind, Except.bind]
  refine ⟨hsign1, ?_, ?_, ?_, ?_⟩
  · unfold getMPCRawTransaction
    rw [hsign0]
  · unfold getMPCTransaction
    rw [hcore3]
  · unfold getHardWareRawTransaction
    rw [hsign0]
  · unfold getHardWareSignedTransaction
    rw [hcore5]

/-- Witness for C5: a concrete legacy transaction, key and trivial backend; phase 2
reassembles exactly the directly signed serialization. -/
theorem claim_C5_two_phase_equivalence_witness :
    toUnsignedEthTx (TxData.legacy ⟨"0x0", "0x0", "0x0", "0x05", "0x0", none, "0x1", 0⟩) =
      Except.ok (UnsignedEthTx.legacy ⟨[], [], [], [5], [], [], [1]⟩) ∧
    getMPCTransaction trivSecp
      (bytesToHex (serializeUnsigned (UnsignedEthTx.legacy ⟨[], [], [], [5], [], [], [1]⟩)))
      (bytesToHex (List.replicate 32 1 ++ List.replicate 32 2))
      (bytesToHex [7]) =
      Except.ok (bytesToHex (serializeSigned (UnsignedEthTx.legacy ⟨[], [], [], [5], [], [], [1]⟩)
        ⟨27, List.replicate 32 1, List.replicate 32 2⟩)) :=
  ⟨by rfl, (claim_C5_two_phase_equivalence trivSecp
    ⟨"0x05", none, none, 0, none, none, none, none, none, none, none, none, none⟩
    (TxData.legacy ⟨"0x0", "0x0", "0x0", "0x05", "0x0", none, "0x1", 0⟩)
    (UnsignedEthTx.legacy ⟨[], [], [], [5], [], [], [1]⟩)
    "0x1111111111111111111111111111111111111111111111111111111111111111"
    (List.replicate 32 17) [7] ⟨27, List.replicate 32 1, List.replicate 32 2⟩
    (by rfl) (by rfl) (by decide) (by decide) (by decide) (by rfl) (by rfl) (by rfl)
    (Or.inl rfl) (by rfl) (by rfl) (by decide) (by decide) (by rfl) (by decide)
    (by rfl) (by decide)).2.2.1⟩

end WalletSDK
